import Mathlib

set_option autoImplicit false

namespace Shipping

/-! Shallow embedding of the BOL-generator core (gui.py, utils.py, helpers.py,
build_data_map.py, label_generator.py).  Python strings are Lean strings,
Python ints are Lean integers, a Python function that can raise or return
None is embedded as an Option-valued function. -/

/-- Embeds Python `str.strip()` on a character list: drop leading and
trailing whitespace. -/
def pyStrip (l : List Char) : List Char :=
  ((l.dropWhile Char.isWhitespace).reverse.dropWhile Char.isWhitespace).reverse

/-- Embeds Python `str.strip()` on strings. -/
def pyStripS (s : String) : String :=
  String.mk (pyStrip s.toList)

/-- Embeds the Python string fallback idiom `s or d` (empty strings are falsy). -/
def pyOr (s d : String) : String := if s = "" then d else s

/-- Tests whether `pat` occurs as a contiguous run inside `l`. -/
def listIsInfixOf (pat : List Char) : List Char → Bool
  | [] => pat.isEmpty
  | c :: cs => pat.isPrefixOf (c :: cs) || listIsInfixOf pat cs

/-- Embeds the Python substring test `pat in s`. -/
def pyIn (pat s : String) : Bool := listIsInfixOf pat.toList s.toList

/-- Embeds Python `s.startswith(pre)`. -/
def pyStartsWith (s pre : String) : Bool := pre.toList.isPrefixOf s.toList

/-- Embeds Python `str(i)` for an integer `i`. -/
def intStr (i : Int) : String := toString i

/-- Embeds Python `", ".join(l)`. -/
def joinComma (l : List String) : String := String.intercalate ", " l

/-- Embeds Python `re.split(r"\D+", s)`: split on maximal runs of non-digit
characters, keeping the empty boundary components exactly as `re.split`
produces them (for example a leading non-digit run contributes a leading
empty component). -/
def splitND : List Char → List (List Char)
  | [] => [[]]
  | c :: cs =>
    if c.isDigit then
      match splitND cs with
      | [] => [[c]]
      | g :: gs => (c :: g) :: gs
    else
      match cs with
      | [] => [[], []]
      | d :: _ => if d.isDigit then [] :: splitND cs else splitND cs

/-- Embeds Python `component.isdigit()`: non-empty and all digits. -/
def isDigitStr (l : List Char) : Bool := !l.isEmpty && l.all Char.isDigit

/-- Embeds `gui.process_skid_dimensions`, with the selected carrier name
passed explicitly (the source reads it from the carrier radio-button
variable).  `none` embeds the error path (dialog shown, `None` returned). -/
def process_skid_dimensions (carrier_name : String) (dimension_str : String) : Option String :=
  if carrier_name = "PARCEL PRO" then
    some dimension_str
  else
    let d := dimension_str.toList
    if d.length = 6 && d.all Char.isDigit then
      some (String.mk (d.take 2) ++ "x" ++ String.mk ((d.drop 2).take 2) ++ "x"
        ++ String.mk (d.drop 4))
    else
      match splitND (pyStrip d) with
      | [a, b, c] =>
        if isDigitStr a && isDigitStr b && isDigitStr c then
          some (String.mk a ++ "x" ++ String.mk b ++ "x" ++ String.mk c)
        else
          none
      | _ => none

/-- Embeds `utils.validate_order_number`: Python
`re.match(r"^\d+(\.\d{1,2})?$", order_number.strip())` as a Boolean. -/
def validate_order_number (order_number : String) : Bool :=
  let l := pyStrip order_number.toList
  let ds := l.takeWhile Char.isDigit
  match l.dropWhile Char.isDigit with
  | [] => !ds.isEmpty
  | p :: fs =>
    !ds.isEmpty && p == '.' && !fs.isEmpty && decide (fs.length ≤ 2) && fs.all Char.isDigit

/-- Embeds `utils.process_order_number` (identical to
`helpers.process_order_number`): replace each dash and underscore by a
period, then append ".00" when the result is shorter than 8 characters. -/
def process_order_number (order_number : String) : String :=
  let processed := String.mk (order_number.toList.map fun c =>
    if c = '-' then '.' else if c = '_' then '.' else c)
  if processed.length ≥ 8 then processed else processed ++ ".00"

/-- Embeds the recomputed skid count of `utils.validate_skid_count`:
`sum(1 for dim in skid_dimensions if "(C)" not in dim and "(B)" not in dim)`. -/
def actual_skid_count (skid_dimensions : List String) : Int :=
  ((skid_dimensions.filter fun dim => !pyIn "(C)" dim && !pyIn "(B)" dim).length : Nat)

/-- Embeds the body of `utils.validate_skid_count` (identical to
`helpers.validate_skid_count`) after the `int(...)` parse of the entry
widget succeeded: `entered_skid_count` is the parsed declared count and
`carrier_name` the name looked up in `CARRIER_OPTIONS`. -/
def validate_skid_count (carrier_name : String) (entered_skid_count : Int)
    (skid_dimensions : List String) : Bool :=
  if carrier_name = "PARCEL PRO" then
    if !skid_dimensions.isEmpty then false else true
  else if carrier_name = "KPS" then true
  else
    if entered_skid_count ≠ actual_skid_count skid_dimensions then false else true

/-- Embeds `utils.validate_alphanumeric`:
`re.match(r"^[a-zA-Z0-9]+$", value.strip())` as a Boolean. -/
def validate_alphanumeric (value : String) : Bool :=
  let l := pyStrip value.toList
  !l.isEmpty && l.all fun c => c.isAlpha || c.isDigit

/-- Embeds `utils.validate_carrier_fields` (identical to
`helpers.validate_carrier_fields`).  The Python numeric test
`validate_numeric_field` (a `float(...)` parse) is abstracted as the
parameter `numericOk`; no claim settled here depends on exactly which
strings `float` accepts. -/
def validate_carrier_fields (numericOk : String → Bool)
    (carrier_name tracking_number quote_number quote_price weight : String) : Bool :=
  if (carrier_name == "FF" || carrier_name == "NFF")
      && !(validate_alphanumeric tracking_number && validate_alphanumeric quote_number) then
    false
  else if (carrier_name == "FF" || carrier_name == "NFF" || carrier_name == "FF LOGISTICS"
      || carrier_name == "CRR") && !numericOk quote_price then
    false
  else if !(carrier_name == "KPS" || carrier_name == "PARCEL PRO") && !numericOk weight then
    false
  else true

/-- Embeds `gui.validate_inputs`.  The carrier-field validation result is
computed and, on failure, only an error dialog is shown — the `False` is
not returned, so the value this function yields depends only on the
skid-count validation.  This mirrors the source faithfully. -/
def validate_inputs (numericOk : String → Bool)
    (carrier_name tracking_number quote_number quote_price weight : String)
    (entered_skid_count : Int) (skid_dimensions : List String) : Bool :=
  let _carrier_fields_ok :=
    validate_carrier_fields numericOk carrier_name tracking_number quote_number quote_price weight
  if !validate_skid_count carrier_name entered_skid_count skid_dimensions then false
  else true

/-- Embeds the prefix of `gui.select_carrier_and_generate` up to the first
external call (`fetch_order_data`): `true` exactly when the run reaches
that database fetch (after which the field map is built, the documents are
rendered and the shipment updates are issued).  Carrier-name resolution and
integer parsing of the entries are taken as already done. -/
def generation_reaches_fetch (numericOk : String → Bool)
    (carrier_name tracking_number quote_number quote_price weight : String)
    (entered_skid_count : Int) (skid_dimensions : List String)
    (order_numbers : List String) : Bool :=
  if !validate_inputs numericOk carrier_name tracking_number quote_number quote_price weight
      entered_skid_count skid_dimensions then false
  else if !validate_skid_count carrier_name entered_skid_count skid_dimensions then false
  else if order_numbers.isEmpty then false
  else true

/-- One shipping-label page, reduced to the texts the claims speak about:
the primary item label (for example "2/4" or "12 PCES.") and the optional
suffix (for example "1C/1C"; empty when absent). -/
abbrev LabelPage := String × String

/-- The primary item label `f"{counter}/{total}"`. -/
def mkItemLabel (counter total : Int) : String := intStr counter ++ "/" ++ intStr total

/-- Embeds the skid loop of `label_generator.generate_labels`: `counter` is
the running unit counter, the `Nat` argument the remaining iterations. -/
def skidLabelLoop (total : Int) (counter : Int) : Nat → List LabelPage
  | 0 => []
  | n + 1 => (mkItemLabel counter total, "") :: skidLabelLoop total (counter + 1) n

/-- Embeds the carpet loop of `label_generator.generate_labels`: `i` is the
1-based position within the carpet group. -/
def carpetLabelLoop (total carpet_count : Int) (counter i : Int) : Nat → List LabelPage
  | 0 => []
  | n + 1 =>
    (mkItemLabel counter total, intStr i ++ "C/" ++ intStr carpet_count ++ "C")
      :: carpetLabelLoop total carpet_count (counter + 1) (i + 1) n

/-- Embeds the box loop of `label_generator.generate_labels`. -/
def boxLabelLoop (total box_count : Int) (counter i : Int) : Nat → List LabelPage
  | 0 => []
  | n + 1 =>
    (mkItemLabel counter total, intStr i ++ "B/" ++ intStr box_count ++ "B")
      :: boxLabelLoop total box_count (counter + 1) (i + 1) n

/-- Embeds `label_generator.generate_labels`, reduced to the ordered list of
per-page label texts (addresses, fonts and file paths are rendering I/O
shared identically by every page).  Python `range(n)` iterates
`max n 0` times, hence the `Int.toNat` coercions; the running counter
starts at 1 and advances once per emitted page. -/
def generate_labels (carrier_name : String)
    (skid_count carpet_count box_count skid_cartons : Int) : List LabelPage :=
  if carrier_name = "PARCEL PRO" then
    [(intStr skid_cartons ++ " PCES.", "")]
  else
    let total := skid_count + carpet_count + box_count
    skidLabelLoop total 1 skid_count.toNat
      ++ carpetLabelLoop total carpet_count (1 + (skid_count.toNat : Int)) 1 carpet_count.toNat
      ++ boxLabelLoop total box_count
          (1 + (skid_count.toNat : Int) + (carpet_count.toNat : Int)) 1 box_count.toNat

/-- The order record fetched by `database.fetch_order_data` (a CSV or ODBC
row): the six fields `build_data_map.prepare_data_map` reads.  A blank or
missing field is the empty string. -/
structure OrderRecord where
  SSD_SHIPMENT_ID : String
  SSD_SHIP_TO : String
  SSD_SHIP_TO_2 : String
  SSD_SHIP_TO_3 : String
  SSD_SHIP_TO_4 : String
  SSD_SHIP_TO_POSTAL : String

/-- The field map built by `build_data_map.prepare_data_map`, one optional
field per template key the module ever writes (a Python dict over a fixed
key vocabulary); `none` means the key is absent from the dict.  The seven
description fields `Desc_2` … `Desc_8` are the function `descs`:
index `i` stands for the key `desc_fields[i]`, that is `Desc_(i+2)`. -/
structure FieldMap where
  BOLnum : Option String := none
  ToName : Option String := none
  ToAddress : Option String := none
  ToCityStateZip : Option String := none
  BillInstructions : Option String := none
  CarrierName : Option String := none
  Date : Option String := none
  HU_QTY_1 : Option String := none
  HU_QTY_2 : Option String := none
  HU_QTY_3 : Option String := none
  Pkg_QTY_1 : Option String := none
  PRO : Option String := none
  WT_1 : Option String := none
  AddInfo7 : Option String := none
  AddInfo8 : Option String := none
  OrderNum1 : Option String := none
  OrderNum2 : Option String := none
  OrderNum3 : Option String := none
  OrderNum4 : Option String := none
  OrderNum5 : Option String := none
  OrderNum6 : Option String := none
  OrderNum7 : Option String := none
  OrderNum8 : Option String := none
  FromSIDNum : Option String := none
  FromName : Option String := none
  FromAddr : Option String := none
  FromCityStateZip : Option String := none
  Prepaid : Option String := none
  Page_ttl : Option String := none
  Desc_1 : Option String := none
  Pkg_Type_1 : Option String := none
  HU_Type_1 : Option String := none
  HU_Type_2 : Option String := none
  HU_Type_3 : Option String := none
  descs : Nat → Option String := fun _ => none

/-- Writes one of the five fields `OrderNum2` … `OrderNum6`, `i` being the
0-based position in the `order_num_fields` list of the source. -/
def setOrderNumField (i : Nat) (v : String) (m : FieldMap) : FieldMap :=
  match i with
  | 0 => { m with OrderNum2 := some v }
  | 1 => { m with OrderNum3 := some v }
  | 2 => { m with OrderNum4 := some v }
  | 3 => { m with OrderNum5 := some v }
  | 4 => { m with OrderNum6 := some v }
  | _ => m

/-- Embeds one iteration of the `for i, field in enumerate(order_num_fields)`
loop of `prepare_data_map`: indices `i*2+2` and `i*2+3` of the order-number
list feed field `i`, pairs comma-joined, a trailing single number alone,
nothing written when the first index is out of range. -/
def orderNumStep (order_numbers : List String) (i : Nat) (m : FieldMap) : FieldMap :=
  match order_numbers.get? (i * 2 + 2) with
  | none => m
  | some a =>
    match order_numbers.get? (i * 2 + 3) with
    | none => setOrderNumField i a m
    | some b => setOrderNumField i (a ++ ", " ++ b) m

/-- Embeds the whole field loop of `prepare_data_map`: `i` is the current
index, the `Nat` argument the number of fields still to visit (5 at the
top call). -/
def order_num_pairs_loop (order_numbers : List String) : Nat → Nat → FieldMap → FieldMap
  | _, 0, m => m
  | i, n + 1, m => order_num_pairs_loop order_numbers (i + 1) n (orderNumStep order_numbers i m)

/-- Embeds the `if order_numbers:` block of `prepare_data_map`: field
`OrderNum1` holds the first one or two numbers comma-joined, then the loop
distributes the remaining numbers over `OrderNum2` … `OrderNum6`. -/
def with_order_numbers (order_numbers : List String) (m : FieldMap) : FieldMap :=
  match order_numbers with
  | [] => m
  | n0 :: rest =>
    let v1 := match rest with
      | [] => n0
      | n1 :: _ => n0 ++ ", " ++ n1
    order_num_pairs_loop order_numbers 0 5 { m with OrderNum1 := some v1 }

/-- Embeds the carrier-specific block of `prepare_data_map` (sender id,
quote-number display, quote-price display). -/
def with_carrier_fields (carrier_name quote_number quote_price : String)
    (m : FieldMap) : FieldMap :=
  let m1 :=
    if carrier_name = "FF" then
      { m with
        FromSIDNum := some "402140"
        OrderNum7 := some (if quote_number = "" then "Quote #: QN ID"
          else "Quote #: " ++ quote_number) }
    else if carrier_name = "NFF" then
      { m with
        FromSIDNum := some "LOU006"
        OrderNum7 := some (if quote_number = "" then "Quote #: "
          else "Quote #: " ++ quote_number) }
    else m
  if carrier_name = "FF" ∨ carrier_name = "NFF" ∨ carrier_name = "FF LOGISTICS"
      ∨ carrier_name = "CRR" then
    { m1 with OrderNum8 := some (if quote_price = "" then "$" else "$" ++ quote_price) }
  else m1

/-- Embeds the `constants` block of `prepare_data_map`. -/
def with_constants (m : FieldMap) : FieldMap :=
  { m with
    FromName := some "LOUISE KOOL & GALT"
    FromAddr := some "2123 MCCOWAN ROAD"
    FromCityStateZip := some "SCARBOROUGH, ON. M1S 3Y6"
    Prepaid := some "     X"
    Page_ttl := some "     1"
    Desc_1 := some "CHILDCARE MATERIALS/FURNITURE"
    Pkg_Type_1 := some "PCES." }

/-- The `desc_fields` list of `build_data_map.populate_skid_dimensions`. -/
def desc_fields : List String :=
  ["Desc_2", "Desc_3", "Desc_4", "Desc_5", "Desc_6", "Desc_7", "Desc_8"]

/-- Embeds the Python chunking
`[skid_dimensions[i:i+3] for i in range(0, len(skid_dimensions), 3)]`. -/
def chunks3 : List String → List (List String)
  | [] => []
  | [a] => [[a]]
  | [a, b] => [[a, b]]
  | a :: b :: c :: t => [a, b, c] :: chunks3 t

/-- Embeds the `for i, group in enumerate(dim_groups)` loop of
`build_data_map.populate_skid_dimensions`: each group is filtered of
entries starting with "N/A"; a group with survivors writes
`desc_fields[i]`, and `desc_fields.get? i = none` (that is `i ≥ 7`) embeds
the Python `IndexError` raised by `desc_fields[i]`. -/
def popLoop : Nat → List (List String) → FieldMap → Option FieldMap
  | _, [], m => some m
  | i, g :: gs, m =>
    let filtered_group := g.filter fun dim => !pyStartsWith dim "N/A"
    if filtered_group.isEmpty then popLoop (i + 1) gs m
    else
      match desc_fields.get? i with
      | none => none
      | some _ =>
        popLoop (i + 1) gs
          { m with descs := Function.update m.descs i (some (joinComma filtered_group)) }

/-- Embeds `build_data_map.populate_skid_dimensions` (the canonical variant,
with the "N/A" filter). -/
def populate_skid_dimensions (m : FieldMap) (skid_dimensions : List String) : Option FieldMap :=
  popLoop 0 (chunks3 skid_dimensions) m

/-- Embeds the trailing handling-unit-type block of `prepare_data_map`. -/
def with_hu_types (skid_count carpet_count box_count : Int) (m : FieldMap) : FieldMap :=
  let m1 := if skid_count > 0 then { m with HU_Type_1 := some "SKIDS" }
    else { m with HU_Type_1 := some "" }
  let m2 := if carpet_count > 0 then { m1 with HU_Type_2 := some "CRPTS." } else m1
  if box_count > 0 then { m2 with HU_Type_3 := some "BOXES" } else m2

/-- Embeds the opening `data_map = { ... }` dict literal of
`build_data_map.prepare_data_map`. -/
def base_data_map (ctr : String → String × Bool) (current_date : String)
    (result : OrderRecord) (skid_count carpet_count box_count skid_cartons : Int)
    (carrier_name tracking_number weight add_info_7 add_info_8 : String) : FieldMap :=
  { BOLnum := some result.SSD_SHIPMENT_ID
    ToName := some (pyOr result.SSD_SHIP_TO "Unknown")
    ToAddress := some (pyOr result.SSD_SHIP_TO_2 "Unknown Address")
    ToCityStateZip := some (pyStripS (pyOr result.SSD_SHIP_TO_4 "Unknown City") ++ ". "
      ++ pyStripS (pyOr result.SSD_SHIP_TO_POSTAL "Unknown Postal Code"))
    BillInstructions := some (ctr result.SSD_SHIP_TO_3).1
    CarrierName := some carrier_name
    Date := some current_date
    HU_QTY_1 := some (if skid_count > 0 then intStr skid_count else "")
    HU_QTY_2 := some (if carpet_count > 0 then intStr carpet_count else "")
    HU_QTY_3 := some (if box_count > 0 then intStr box_count else "")
    Pkg_QTY_1 := some (intStr (skid_cartons - carpet_count - box_count))
    PRO := some tracking_number
    WT_1 := some (if weight = "" then "" else weight ++ " LBS.")
    AddInfo7 := some add_info_7
    AddInfo8 := some add_info_8 }

/-- Embeds `build_data_map.prepare_data_map`.  `ctr` abstracts the imported
`utils.clean_text_refined` (a total function on strings, whose output the
settled claims never inspect) and `current_date` the module constant
`CURRENT_DATE`.  The result is `none` exactly when the Python call raises
(the description-field `IndexError` of `populate_skid_dimensions`). -/
def prepare_data_map (ctr : String → String × Bool) (current_date : String)
    (result : OrderRecord) (skid_count carpet_count box_count skid_cartons : Int)
    (order_numbers : List String)
    (carrier_name quote_number quote_price tracking_number weight : String)
    (skid_dimensions : List String) (add_info_7 add_info_8 : String) : Option FieldMap :=
  let m0 : FieldMap := base_data_map ctr current_date result skid_count carpet_count
    box_count skid_cartons carrier_name tracking_number weight add_info_7 add_info_8
  let m1 := with_order_numbers order_numbers m0
  let m2 := with_carrier_fields carrier_name quote_number quote_price m1
  let m3 := with_constants m2
  match populate_skid_dimensions m3 skid_dimensions with
  | none => none
  | some m4 => some (with_hu_types skid_count carpet_count box_count m4)

/-- The module-level mutable state of `gui.py` the dimension operations act
on: the `skid_dimensions` list and the three global counters. -/
structure GuiState where
  skid_dimensions : List String
  skid_count : Int
  carpet_count : Int
  box_count : Int

/-- The state at module load: empty list, all counters 0. -/
def initialGuiState : GuiState := ⟨[], 0, 0, 0⟩

/-- Embeds `gui.add_skid_dimension`: the entry text is stripped, PARCEL PRO
with the Skid classification is rejected, the processed dimension is tagged
and the matching counter incremented.  The Python guard
`if processed_dimensions:` also drops a processed empty string (falsy). -/
def add_skid_dimension (carrier_name classification raw : String) (st : GuiState) : GuiState :=
  if carrier_name = "PARCEL PRO" ∧ classification = "Skid" then st
  else
    match process_skid_dimensions carrier_name (pyStripS raw) with
    | none => st
    | some processed =>
      if processed = "" then st
      else if classification = "Carpet" then
        { st with
          skid_dimensions := st.skid_dimensions ++ [processed ++ " (C)"]
          carpet_count := st.carpet_count + 1 }
      else if classification = "Box" then
        { st with
          skid_dimensions := st.skid_dimensions ++ [processed ++ " (B)"]
          box_count := st.box_count + 1 }
      else
        { st with
          skid_dimensions := st.skid_dimensions ++ [processed]
          skid_count := st.skid_count + 1 }

/-- Embeds the dimension branch of `gui.delete_selected_item`: the selected
entry is removed from the list; none of the counters is touched. -/
def delete_selected_dimension (index : Nat) (st : GuiState) : GuiState :=
  if index < st.skid_dimensions.length then
    { st with skid_dimensions := st.skid_dimensions.eraseIdx index }
  else st

/-- A user operation on the dimension list. -/
inductive GuiOp where
  | add (carrier_name classification raw : String)
  | delete (index : Nat)

/-- Applies one operation to the state. -/
def applyGuiOp (st : GuiState) : GuiOp → GuiState
  | .add c cl r => add_skid_dimension c cl r st
  | .delete i => delete_selected_dimension i st

/-- Runs a sequence of operations from the module-load state. -/
def runGuiOps (ops : List GuiOp) : GuiState :=
  ops.foldl applyGuiOp initialGuiState

/-- The number of entries containing "(C)". -/
def countC (dims : List String) : Int := ((dims.filter fun d => pyIn "(C)" d).length : Nat)

/-- The number of entries containing "(B)". -/
def countB (dims : List String) : Int := ((dims.filter fun d => pyIn "(B)" d).length : Nat)

/-- The counter invariant claimed of the GUI state: the global carpet and
box counters agree with the counts recomputed from the dimension list. -/
def counters_consistent (st : GuiState) : Prop :=
  st.carpet_count = countC st.skid_dimensions ∧ st.box_count = countB st.skid_dimensions

instance (st : GuiState) : Decidable (counters_consistent st) := by
  unfold counters_consistent; infer_instance

/-! Statement-side definitions: these formalize phrases of the claims (not
source code) and are compared against the embedded code by the theorems. -/

/-- The suffix the label-sequence claim predicts for the unit at 0-based
position `k`: empty for the skid block, then "jC/ccC" and "kB/bcB" with the
group-local index restarting at 1. -/
def suffixSpec (skid_count carpet_count box_count : Int) (k : Nat) : String :=
  if (k : Int) < skid_count then ""
  else if (k : Int) < skid_count + carpet_count then
    intStr ((k : Int) - skid_count + 1) ++ "C/" ++ intStr carpet_count ++ "C"
  else
    intStr ((k : Int) - skid_count - carpet_count + 1) ++ "B/" ++ intStr box_count ++ "B"

/-- The dimension-claim phrase "contains exactly 3 numeric groups separated
by non-digit characters": the string decomposes as digits, separator,
digits, separator, digits, with every part non-empty and the separators
free of digits. -/
def threeGroupShape (g1 s1 g2 s2 g3 : List Char) : Prop :=
  (g1 ≠ [] ∧ g1.all Char.isDigit = true) ∧
  (s1 ≠ [] ∧ s1.all (fun ch => !ch.isDigit) = true) ∧
  (g2 ≠ [] ∧ g2.all Char.isDigit = true) ∧
  (s2 ≠ [] ∧ s2.all (fun ch => !ch.isDigit) = true) ∧
  (g3 ≠ [] ∧ g3.all Char.isDigit = true)

instance (g1 s1 g2 s2 g3 : List Char) : Decidable (threeGroupShape g1 s1 g2 s2 g3) := by
  unfold threeGroupShape
  infer_instance

/-- The value the order-number claim predicts for field `OrderNum1`: the
first two numbers comma-joined, or a single first number alone. -/
def orderNum1Spec : List String → Option String
  | [] => none
  | [x] => some x
  | x :: y :: _ => some (x ++ ", " ++ y)

/-- The value the order-number claim predicts for field `OrderNum(i+2)`:
numbers `2i+2` and `2i+3` comma-joined, a trailing single number alone, and
no field at all when index `2i+2` is out of range. -/
def orderNumPairSpec (l : List String) (i : Nat) : Option String :=
  match l.get? (i * 2 + 2), l.get? (i * 2 + 3) with
  | some a, some b => some (a ++ ", " ++ b)
  | some a, none => some a
  | none, _ => none

/-- Reads the field `OrderNum(i+2)` of a field map, `i` being the 0-based
position in the `order_num_fields` list. -/
def orderNumGet (m : FieldMap) : Nat → Option String
  | 0 => m.OrderNum2
  | 1 => m.OrderNum3
  | 2 => m.OrderNum4
  | 3 => m.OrderNum5
  | 4 => m.OrderNum6
  | _ => none

/-- The value the description-field claim predicts for description slot `i`:
the comma-joined `i`-th group of 3 after dropping "N/A"-prefixed entries,
or no field at all when the group is missing or fully filtered out. -/
def descSpec (skid_dimensions : List String) (i : Nat) : Option String :=
  match (chunks3 skid_dimensions).get? i with
  | none => none
  | some g =>
    let f := g.filter fun dim => !pyStartsWith dim "N/A"
    if f.isEmpty then none else some (joinComma f)

/-- The value slot `k` of the description fields takes after running the
population loop over group list `gs` with default `dflt`: used to state the
loop lemma for `popLoop`. -/
def popGroupSpec (gs : List (List String)) (k : Nat) (dflt : Option String) : Option String :=
  match gs.get? k with
  | none => dflt
  | some g =>
    if (g.filter fun dim => !pyStartsWith dim "N/A").isEmpty then dflt
    else some (joinComma (g.filter fun dim => !pyStartsWith dim "N/A"))

/-! Theorems settling the claims, with their supporting lemmas. -/

/-- C2 (code divergence): with carrier FF and the non-alphanumeric tracking
number "!!!", carrier-field validation fails, yet `validate_inputs` still
returns `True` (the failing result is dropped after showing a dialog) and
the generation run reaches the database fetch — so a failed pre-generation
validation does not halt the run before external calls are made. -/
theorem C2_carrier_validation_does_not_halt (numericOk : String → Bool) :
    validate_carrier_fields numericOk "FF" "!!!" "Q1" "5" "5" = false ∧
    validate_inputs numericOk "FF" "!!!" "Q1" "5" "5" 0 [] = true ∧
    generation_reaches_fetch numericOk "FF" "!!!" "Q1" "5" "5" 0 [] ["123456.00"] = true := by
  refine ⟨?_, ?_, ?_⟩ <;> rfl

/-- C2 (witness): the divergence at a fully concrete numeric check. -/
theorem C2_witness :
    validate_carrier_fields (fun _ => true) "FF" "!!!" "Q1" "5" "5" = false ∧
    validate_inputs (fun _ => true) "FF" "!!!" "Q1" "5" "5" 0 [] = true ∧
    generation_reaches_fetch (fun _ => true) "FF" "!!!" "Q1" "5" "5" 0 []
      ["123456.00"] = true :=
  C2_carrier_validation_does_not_halt (fun _ => true)

/-- C3 (counterexample): the claim says that for carrier KPS dimension
normalization ignores the input and produces the sentinel "N/A"; in the
code KPS gets no special treatment, and the KPS input "123456" is
normalized to "12x34x56", not to "N/A". -/
theorem C3_counterexample :
    process_skid_dimensions "KPS" "123456" = some "12x34x56" ∧
    process_skid_dimensions "KPS" "123456" ≠ some "N/A" := by
  exact ⟨rfl, by decide⟩

/-- C3 (amended): the carrier whose dimension entry bypasses normalization
is PARCEL PRO, and it returns the raw string verbatim (not "N/A"); every
other carrier, KPS included, is processed by one and the same generic
path. -/
theorem C3_bypass_is_parcel_pro (s carrier_name : String)
    (h : carrier_name ≠ "PARCEL PRO") :
    process_skid_dimensions "PARCEL PRO" s = some s ∧
    process_skid_dimensions carrier_name s = process_skid_dimensions "KPS" s := by
  constructor
  · simp [process_skid_dimensions]
  · unfold process_skid_dimensions
    rw [if_neg h, if_neg (by decide : ¬("KPS" = "PARCEL PRO"))]

/-- C3 (witness): the amended statement at concrete inputs. -/
theorem C3_witness :
    process_skid_dimensions "PARCEL PRO" "abc" = some "abc" ∧
    process_skid_dimensions "FF" "abc" = process_skid_dimensions "KPS" "abc" :=
  C3_bypass_is_parcel_pro "abc" "FF" (by decide)

/-- C5 (confirmed): the skid-count cross-check fails for PARCEL PRO exactly
when the dimension list is non-empty, always succeeds for KPS, and for any
other carrier succeeds exactly when the declared count equals the number
of dimension entries carrying neither "(C)" nor "(B)". -/
theorem C5_skid_count_rules (carrier_name : String) (n : Int) (dims : List String) :
    (validate_skid_count "PARCEL PRO" n dims = false ↔ dims ≠ []) ∧
    validate_skid_count "KPS" n dims = true ∧
    (carrier_name ≠ "PARCEL PRO" → carrier_name ≠ "KPS" →
      (validate_skid_count carrier_name n dims = true ↔ n = actual_skid_count dims)) := by
  refine ⟨?_, ?_, ?_⟩
  · unfold validate_skid_count
    rw [if_pos rfl]
    cases dims <;> simp
  · rfl
  · intro h1 h2
    unfold validate_skid_count
    rw [if_neg h1, if_neg h2]
    rcases eq_or_ne n (actual_skid_count dims) with he | he
    · simp [he]
    · simp [he]

/-- C5 (witness): with dimensions 10x10x10, 20x20x20 (C), 30x30x30 (B) a
declared count of 1 passes and a declared count of 2 fails. -/
theorem C5_witness :
    validate_skid_count "FF" 1 ["10x10x10", "20x20x20 (C)", "30x30x30 (B)"] = true ∧
    validate_skid_count "FF" 2 ["10x10x10", "20x20x20 (C)", "30x30x30 (B)"] = false := by
  constructor
  · exact ((C5_skid_count_rules "FF" 1
      ["10x10x10", "20x20x20 (C)", "30x30x30 (B)"]).2.2
      (by decide) (by decide)).mpr (by decide)
  · have h := (C5_skid_count_rules "FF" 2
      ["10x10x10", "20x20x20 (C)", "30x30x30 (B)"]).2.2 (by decide) (by decide)
    cases hv : validate_skid_count "FF" 2 ["10x10x10", "20x20x20 (C)", "30x30x30 (B)"]
    · rfl
    · exact absurd (h.mp hv) (by decide)

/-- C7 (counterexample): the claim says every validated order number
normalizes to a string of length at least 8; the validated input "123"
normalizes to "123.00", which has length 6. -/
theorem C7_counterexample :
    validate_order_number "123" = true ∧
    process_order_number "123" = "123.00" ∧
    (process_order_number "123").length < 8 := by
  exact ⟨by decide, rfl, by decide⟩

/-- C7 (amended): the ".00" padding adds only 3 characters, so the
normalized order number has length at least 8 whenever the validated raw
string has at least 5 characters. -/
theorem C7_length_lower_bound (s : String)
    (hv : validate_order_number s = true) (hlen : 5 ≤ s.length) :
    8 ≤ (process_order_number s).length := by
  clear hv
  have hlp : (String.mk (s.toList.map fun c =>
      if c = '-' then '.' else if c = '_' then '.' else c)).length = s.length := by
    rw [String.length_mk, List.length_map]
    rfl
  show 8 ≤ (if (String.mk (s.toList.map fun c =>
      if c = '-' then '.' else if c = '_' then '.' else c)).length ≥ 8 then
        String.mk (s.toList.map fun c =>
          if c = '-' then '.' else if c = '_' then '.' else c)
      else String.mk (s.toList.map fun c =>
          if c = '-' then '.' else if c = '_' then '.' else c) ++ ".00").length
  split
  · omega
  · rw [String.length_append, hlp]
    have h3 : (".00" : String).length = 3 := by rfl
    omega

/-- C7 (witness): the amended bound at the validated 5-character input. -/
theorem C7_witness :
    validate_order_number "12345" = true ∧ 5 ≤ "12345".length ∧
    8 ≤ (process_order_number "12345").length :=
  ⟨by decide, by decide, C7_length_lower_bound "12345" (by decide) (by decide)⟩

/-- C1 (counterexample): the claim says the field-map builder raises no
exception for any number of dimension entries; with 22 entries the eighth
description group overruns the 7-entry `desc_fields` list and the builder
fails (a Python `IndexError`), embedded here as the `none` result. -/
theorem C1_counterexample :
    prepare_data_map (fun s => (s, true)) "2024-10-16" ⟨"SID1", "", "", "", "", ""⟩
      0 0 0 0 [] "FF" "" "" "" "" (List.replicate 22 "1x1x1") "" "" = none := by
  rfl

/-- C9 (counterexample): the claim says that for every dimension list each
3-entry group populates one of the 7 description fields; with 24 entries
(8 groups) the builder raises instead of producing any field map at all. -/
theorem C9_counterexample :
    populate_skid_dimensions {} (List.replicate 24 "2x2x2") = none := by
  rfl

/-- C10 (counterexample): deleting a dimension entry does not decrement the
global counters: after adding one carpet dimension and deleting it, the
carpet counter is 1 while the list holds no "(C)" entry. -/
theorem C10_counterexample :
    ¬ counters_consistent
      (runGuiOps [GuiOp.add "FF" "Carpet" "123456", GuiOp.delete 0]) := by
  decide

theorem skidLabelLoop_length (t c : Int) (n : Nat) : (skidLabelLoop t c n).length = n := by
  induction n generalizing c with
  | zero => rfl
  | succ n ih => simp [skidLabelLoop, ih]

theorem carpetLabelLoop_length (t cc c i : Int) (n : Nat) :
    (carpetLabelLoop t cc c i n).length = n := by
  induction n generalizing c i with
  | zero => rfl
  | succ n ih => simp [carpetLabelLoop, ih]

theorem boxLabelLoop_length (t bc c i : Int) (n : Nat) :
    (boxLabelLoop t bc c i n).length = n := by
  induction n generalizing c i with
  | zero => rfl
  | succ n ih => simp [boxLabelLoop, ih]

theorem skidLabelLoop_get (t : Int) : ∀ (n : Nat) (c : Int) (k : Nat), k < n →
    (skidLabelLoop t c n).get? k = some (mkItemLabel (c + k) t, "") := by
  intro n
  induction n with
  | zero => intro c k hk; omega
  | succ n ih =>
    intro c k hk
    cases k with
    | zero => simp [skidLabelLoop]
    | succ k =>
      have h := ih (c + 1) k (by omega)
      have harg : c + 1 + (k : Int) = c + ((k + 1 : Nat) : Int) := by push_cast; ring
      rw [harg] at h
      simpa [skidLabelLoop] using h

theorem carpetLabelLoop_get (t cc : Int) : ∀ (n : Nat) (c i : Int) (k : Nat), k < n →
    (carpetLabelLoop t cc c i n).get? k =
      some (mkItemLabel (c + k) t, intStr (i + k) ++ "C/" ++ intStr cc ++ "C") := by
  intro n
  induction n with
  | zero => intro c i k hk; omega
  | succ n ih =>
    intro c i k hk
    cases k with
    | zero => simp [carpetLabelLoop]
    | succ k =>
      have h := ih (c + 1) (i + 1) k (by omega)
      have harg : c + 1 + (k : Int) = c + ((k + 1 : Nat) : Int) := by push_cast; ring
      have harg2 : i + 1 + (k : Int) = i + ((k + 1 : Nat) : Int) := by push_cast; ring
      rw [harg, harg2] at h
      simpa [carpetLabelLoop] using h

theorem boxLabelLoop_get (t bc : Int) : ∀ (n : Nat) (c i : Int) (k : Nat), k < n →
    (boxLabelLoop t bc c i n).get? k =
      some (mkItemLabel (c + k) t, intStr (i + k) ++ "B/" ++ intStr bc ++ "B") := by
  intro n
  induction n with
  | zero => intro c i k hk; omega
  | succ n ih =>
    intro c i k hk
    cases k with
    | zero => simp [boxLabelLoop]
    | succ k =>
      have h := ih (c + 1) (i + 1) k (by omega)
      have harg : c + 1 + (k : Int) = c + ((k + 1 : Nat) : Int) := by push_cast; ring
      have harg2 : i + 1 + (k : Int) = i + ((k + 1 : Nat) : Int) := by push_cast; ring
      rw [harg, harg2] at h
      simpa [boxLabelLoop] using h

/-- C4 (confirmed): for a non-aggregate carrier and non-negative counts the
label sequence holds exactly skid+carpet+box pages; page `k` (0-based)
carries the primary text `(k+1)/total` running continuously across the
skid, carpet and box blocks, with the suffix of `suffixSpec`; for
PARCEL PRO exactly one page `"<cartons> PCES."` with empty suffix is
produced. -/
theorem C4_label_sequence (carrier_name : String) (sc cc bc cart : Int)
    (hc : carrier_name ≠ "PARCEL PRO") (hsc : 0 ≤ sc) (hcc : 0 ≤ cc) (hbc : 0 ≤ bc) :
    (generate_labels carrier_name sc cc bc cart).length = (sc + cc + bc).toNat ∧
    (∀ k : Nat, k < (sc + cc + bc).toNat →
      (generate_labels carrier_name sc cc bc cart).get? k =
        some (mkItemLabel ((k : Int) + 1) (sc + cc + bc), suffixSpec sc cc bc k)) ∧
    generate_labels "PARCEL PRO" sc cc bc cart = [(intStr cart ++ " PCES.", "")] := by
  have hgen : generate_labels carrier_name sc cc bc cart =
      skidLabelLoop (sc + cc + bc) 1 sc.toNat
        ++ carpetLabelLoop (sc + cc + bc) cc (1 + (sc.toNat : Int)) 1 cc.toNat
        ++ boxLabelLoop (sc + cc + bc) bc
            (1 + (sc.toNat : Int) + (cc.toNat : Int)) 1 bc.toNat := by
    unfold generate_labels
    rw [if_neg hc]
  refine ⟨?_, ?_, ?_⟩
  · rw [hgen]
    simp only [List.length_append, skidLabelLoop_length, carpetLabelLoop_length,
      boxLabelLoop_length]
    omega
  · intro k hk
    rw [hgen, List.append_assoc]
    by_cases h1 : k < sc.toNat
    · rw [List.get?_append (by rw [skidLabelLoop_length]; exact h1)]
      rw [skidLabelLoop_get (sc + cc + bc) sc.toNat 1 k h1]
      have e1 : (1 : Int) + (k : Int) = (k : Int) + 1 := by ring
      have e2 : suffixSpec sc cc bc k = "" := by
        unfold suffixSpec
        rw [if_pos (by omega)]
      rw [e1, e2]
    · rw [List.get?_append_right (by rw [skidLabelLoop_length]; omega)]
      rw [skidLabelLoop_length]
      by_cases h2 : k - sc.toNat < cc.toNat
      · rw [List.get?_append (by rw [carpetLabelLoop_length]; exact h2)]
        rw [carpetLabelLoop_get (sc + cc + bc) cc cc.toNat (1 + (sc.toNat : Int)) 1
          (k - sc.toNat) h2]
        have e1 : 1 + (sc.toNat : Int) + ((k - sc.toNat : Nat) : Int) = (k : Int) + 1 := by
          omega
        have e2 : suffixSpec sc cc bc k =
            intStr (1 + ((k - sc.toNat : Nat) : Int)) ++ "C/" ++ intStr cc ++ "C" := by
          unfold suffixSpec
          rw [if_neg (by omega), if_pos (by omega)]
          have e3 : (k : Int) - sc + 1 = 1 + ((k - sc.toNat : Nat) : Int) := by omega
          rw [e3]
        rw [e1, e2]
      · rw [List.get?_append_right (by rw [carpetLabelLoop_length]; omega)]
        rw [carpetLabelLoop_length]
        have h3 : k - sc.toNat - cc.toNat < bc.toNat := by omega
        rw [boxLabelLoop_get (sc + cc + bc) bc bc.toNat
          (1 + (sc.toNat : Int) + (cc.toNat : Int)) 1 (k - sc.toNat - cc.toNat) h3]
        have e1 : 1 + (sc.toNat : Int) + (cc.toNat : Int)
            + ((k - sc.toNat - cc.toNat : Nat) : Int) = (k : Int) + 1 := by omega
        have e2 : suffixSpec sc cc bc k =
            intStr (1 + ((k - sc.toNat - cc.toNat : Nat) : Int)) ++ "B/"
              ++ intStr bc ++ "B" := by
          unfold suffixSpec
          rw [if_neg (by omega), if_neg (by omega)]
          have e3 : (k : Int) - sc - cc + 1 = 1 + ((k - sc.toNat - cc.toNat : Nat) : Int) := by
            omega
          rw [e3]
        rw [e1, e2]
  · simp [generate_labels]

/-- C4 (witness): the non-aggregate branch at counts 2, 1, 1. -/
theorem C4_witness :
    ("FF" : String) ≠ "PARCEL PRO" ∧
    (generate_labels "FF" 2 1 1 0).length = ((2 : Int) + 1 + 1).toNat :=
  ⟨by decide, (C4_label_sequence "FF" 2 1 1 0 (by decide) (by decide) (by decide)
    (by decide)).1⟩

theorem orderNumGet_ge5 (m : FieldMap) (j : Nat) (h : 5 ≤ j) : orderNumGet m j = none := by
  rcases j with _ | _ | _ | _ | _ | j
  · omega
  · omega
  · omega
  · omega
  · omega
  · rfl

theorem orderNumGet_setOrderNumField_same (i : Nat) (hi : i < 5) (v : String) (m : FieldMap) :
    orderNumGet (setOrderNumField i v m) i = some v := by
  rcases i with _ | _ | _ | _ | _ | i
  · rfl
  · rfl
  · rfl
  · rfl
  · rfl
  · omega

theorem orderNumGet_setOrderNumField_ne (i j : Nat) (h : i ≠ j) (v : String) (m : FieldMap) :
    orderNumGet (setOrderNumField i v m) j = orderNumGet m j := by
  rcases i with _ | _ | _ | _ | _ | i <;> rcases j with _ | _ | _ | _ | _ | j <;>
    first
      | rfl
      | exact absurd rfl h

theorem orderNumGet_orderNumStep_same (l : List String) (i : Nat) (hi : i < 5) (m : FieldMap) :
    orderNumGet (orderNumStep l i m) i =
      (match l.get? (i * 2 + 2), l.get? (i * 2 + 3) with
        | some a, some b => some (a ++ ", " ++ b)
        | some a, none => some a
        | none, _ => orderNumGet m i) := by
  unfold orderNumStep
  cases h2 : l.get? (i * 2 + 2) with
  | none => rfl
  | some a =>
    cases h3 : l.get? (i * 2 + 3) with
    | none => exact orderNumGet_setOrderNumField_same i hi a m
    | some b => exact orderNumGet_setOrderNumField_same i hi (a ++ ", " ++ b) m

theorem orderNumGet_orderNumStep_ne (l : List String) (i j : Nat) (h : i ≠ j) (m : FieldMap) :
    orderNumGet (orderNumStep l i m) j = orderNumGet m j := by
  unfold orderNumStep
  cases l.get? (i * 2 + 2) with
  | none => rfl
  | some a =>
    cases l.get? (i * 2 + 3) with
    | none => exact orderNumGet_setOrderNumField_ne i j h a m
    | some b => exact orderNumGet_setOrderNumField_ne i j h (a ++ ", " ++ b) m

theorem order_num_pairs_loop_get (l : List String) :
    ∀ (n i0 : Nat) (m : FieldMap) (j : Nat),
      orderNumGet (order_num_pairs_loop l i0 n m) j =
        if i0 ≤ j ∧ j < i0 + n ∧ j < 5 then
          (match l.get? (j * 2 + 2), l.get? (j * 2 + 3) with
            | some a, some b => some (a ++ ", " ++ b)
            | some a, none => some a
            | none, _ => orderNumGet m j)
        else orderNumGet m j := by
  intro n
  induction n with
  | zero =>
    intro i0 m j
    rw [if_neg (by omega)]
    rfl
  | succ n ih =>
    intro i0 m j
    rw [show order_num_pairs_loop l i0 (n + 1) m
        = order_num_pairs_loop l (i0 + 1) n (orderNumStep l i0 m) from rfl]
    rw [ih (i0 + 1) (orderNumStep l i0 m) j]
    by_cases hj : i0 = j
    · subst hj
      rw [if_neg (by omega)]
      by_cases h5 : i0 < 5
      · rw [if_pos (by omega)]
        exact orderNumGet_orderNumStep_same l i0 h5 m
      · rw [if_neg (by omega)]
        rw [orderNumGet_ge5 _ i0 (by omega), orderNumGet_ge5 _ i0 (by omega)]
    · simp only [orderNumGet_orderNumStep_ne l i0 j hj]
      by_cases hcond : i0 + 1 ≤ j ∧ j < i0 + 1 + n ∧ j < 5
      · rw [if_pos hcond, if_pos (by omega)]
      · rw [if_neg hcond, if_neg (by omega)]

theorem OrderNum1_setOrderNumField (i : Nat) (v : String) (m : FieldMap) :
    (setOrderNumField i v m).OrderNum1 = m.OrderNum1 := by
  rcases i with _ | _ | _ | _ | _ | i <;> rfl

theorem OrderNum1_orderNumStep (l : List String) (i : Nat) (m : FieldMap) :
    (orderNumStep l i m).OrderNum1 = m.OrderNum1 := by
  unfold orderNumStep
  cases l.get? (i * 2 + 2) with
  | none => rfl
  | some a =>
    cases l.get? (i * 2 + 3) with
    | none => exact OrderNum1_setOrderNumField i a m
    | some b => exact OrderNum1_setOrderNumField i (a ++ ", " ++ b) m

theorem OrderNum1_order_num_pairs_loop (l : List String) :
    ∀ (n i0 : Nat) (m : FieldMap),
      (order_num_pairs_loop l i0 n m).OrderNum1 = m.OrderNum1 := by
  intro n
  induction n with
  | zero => intro i0 m; rfl
  | succ n ih =>
    intro i0 m
    rw [show order_num_pairs_loop l i0 (n + 1) m
        = order_num_pairs_loop l (i0 + 1) n (orderNumStep l i0 m) from rfl]
    rw [ih (i0 + 1) (orderNumStep l i0 m), OrderNum1_orderNumStep]

theorem with_order_numbers_OrderNum1 (n0 : String) (rest : List String) (m : FieldMap) :
    (with_order_numbers (n0 :: rest) m).OrderNum1 =
      some (match rest with | [] => n0 | n1 :: _ => n0 ++ ", " ++ n1) := by
  unfold with_order_numbers
  rw [OrderNum1_order_num_pairs_loop]

theorem orderNumGet_with_order_numbers (l : List String) (m : FieldMap) (j : Nat) (hj : j < 5) :
    orderNumGet (with_order_numbers l m) j =
      (match l.get? (j * 2 + 2), l.get? (j * 2 + 3) with
        | some a, some b => some (a ++ ", " ++ b)
        | some a, none => some a
        | none, _ => orderNumGet m j) := by
  cases l with
  | nil =>
    show orderNumGet m j = _
    rw [show (([] : List String).get? (j * 2 + 2)) = none from rfl]
  | cons n0 rest =>
    unfold with_order_numbers
    rw [order_num_pairs_loop_get, if_pos (by omega)]
    have hb : ∀ v, orderNumGet { m with OrderNum1 := v } j = orderNumGet m j := by
      intro v
      rcases j with _ | _ | _ | _ | _ | j <;> rfl
    cases (n0 :: rest).get? (j * 2 + 2) with
    | none => exact hb _
    | some a => cases (n0 :: rest).get? (j * 2 + 3) with
      | none => rfl
      | some b => rfl

theorem popLoop_congr (f : FieldMap → Option String)
    (hf : ∀ (m : FieldMap) (d : Nat → Option String), f { m with descs := d } = f m) :
    ∀ (gs : List (List String)) (i : Nat) (m m' : FieldMap),
      popLoop i gs m = some m' → f m' = f m := by
  intro gs
  induction gs with
  | nil =>
    intro i m m' h
    simp only [popLoop] at h
    cases h
    rfl
  | cons g gs ih =>
    intro i m m' h
    simp only [popLoop] at h
    split at h
    · exact ih (i + 1) m m' h
    · cases hd : desc_fields.get? i with
      | none => rw [hd] at h; cases h
      | some fld =>
        rw [hd] at h
        rw [ih (i + 1) _ m' h]
        exact hf m _

theorem with_carrier_fields_OrderNum1 (carrier_name quote_number quote_price : String)
    (m : FieldMap) :
    (with_carrier_fields carrier_name quote_number quote_price m).OrderNum1 = m.OrderNum1 := by
  unfold with_carrier_fields
  split_ifs <;> rfl

theorem with_carrier_fields_ToName (carrier_name quote_number quote_price : String)
    (m : FieldMap) :
    (with_carrier_fields carrier_name quote_number quote_price m).ToName = m.ToName := by
  unfold with_carrier_fields
  split_ifs <;> rfl

theorem with_carrier_fields_ToAddress (carrier_name quote_number quote_price : String)
    (m : FieldMap) :
    (with_carrier_fields carrier_name quote_number quote_price m).ToAddress = m.ToAddress := by
  unfold with_carrier_fields
  split_ifs <;> rfl

theorem with_carrier_fields_ToCityStateZip (carrier_name quote_number quote_price : String)
    (m : FieldMap) :
    (with_carrier_fields carrier_name quote_number quote_price m).ToCityStateZip
      = m.ToCityStateZip := by
  unfold with_carrier_fields
  split_ifs <;> rfl

theorem with_carrier_fields_orderNumGet (carrier_name quote_number quote_price : String)
    (m : FieldMap) (i : Nat) :
    orderNumGet (with_carrier_fields carrier_name quote_number quote_price m) i
      = orderNumGet m i := by
  rcases i with _ | _ | _ | _ | _ | i <;> (unfold with_carrier_fields; split_ifs <;> rfl)

theorem with_hu_types_OrderNum1 (sc cc bc : Int) (m : FieldMap) :
    (with_hu_types sc cc bc m).OrderNum1 = m.OrderNum1 := by
  unfold with_hu_types
  split_ifs <;> rfl

theorem with_hu_types_ToName (sc cc bc : Int) (m : FieldMap) :
    (with_hu_types sc cc bc m).ToName = m.ToName := by
  unfold with_hu_types
  split_ifs <;> rfl

theorem with_hu_types_ToAddress (sc cc bc : Int) (m : FieldMap) :
    (with_hu_types sc cc bc m).ToAddress = m.ToAddress := by
  unfold with_hu_types
  split_ifs <;> rfl

theorem with_hu_types_ToCityStateZip (sc cc bc : Int) (m : FieldMap) :
    (with_hu_types sc cc bc m).ToCityStateZip = m.ToCityStateZip := by
  unfold with_hu_types
  split_ifs <;> rfl

theorem with_hu_types_orderNumGet (sc cc bc : Int) (m : FieldMap) (i : Nat) :
    orderNumGet (with_hu_types sc cc bc m) i = orderNumGet m i := by
  rcases i with _ | _ | _ | _ | _ | i <;> (unfold with_hu_types; split_ifs <;> rfl)

theorem order_num_pairs_loop_take (l : List String) (N : Nat) :
    ∀ (n i0 : Nat) (m : FieldMap), i0 * 2 + n * 2 + 1 < N →
      order_num_pairs_loop l i0 n m = order_num_pairs_loop (l.take N) i0 n m := by
  intro n
  induction n with
  | zero => intro i0 m _; rfl
  | succ n ih =>
    intro i0 m hN
    rw [show order_num_pairs_loop l i0 (n + 1) m
        = order_num_pairs_loop l (i0 + 1) n (orderNumStep l i0 m) from rfl]
    rw [show order_num_pairs_loop (l.take N) i0 (n + 1) m
        = order_num_pairs_loop (l.take N) (i0 + 1) n (orderNumStep (l.take N) i0 m) from rfl]
    have hstep : orderNumStep l i0 m = orderNumStep (l.take N) i0 m := by
      unfold orderNumStep
      rw [List.get?_take (by omega : i0 * 2 + 2 < N), List.get?_take (by omega : i0 * 2 + 3 < N)]
    rw [← hstep, ih (i0 + 1) (orderNumStep l i0 m) (by omega)]

theorem with_order_numbers_take12 (l : List String) (m : FieldMap) :
    with_order_numbers l m = with_order_numbers (l.take 12) m := by
  cases l with
  | nil => rfl
  | cons n0 rest =>
    cases rest with
    | nil => rfl
    | cons n1 rest2 =>
      rw [show (n0 :: n1 :: rest2).take 12 = n0 :: n1 :: rest2.take 10 from rfl]
      simp only [with_order_numbers]
      exact order_num_pairs_loop_take (n0 :: n1 :: rest2) 12 5 0 _ (by omega)

/-- C8 (confirmed): in the built field map, `OrderNum1` comma-joins the
first two order numbers (or holds a single one), the remaining numbers fill
`OrderNum2` … `OrderNum6` two at a time in input order with a possible
single trailing number and absent fields past the last used group, and the
whole map is unchanged when numbers past the 12th are removed (they are
silently dropped). -/
theorem C8_order_number_packing (ctr : String → String × Bool) (current_date : String)
    (result : OrderRecord) (sc cc bc cart : Int) (l : List String)
    (carrier_name quote_number quote_price tracking_number weight : String)
    (dims : List String) (a7 a8 : String) (m : FieldMap)
    (hm : prepare_data_map ctr current_date result sc cc bc cart l carrier_name
      quote_number quote_price tracking_number weight dims a7 a8 = some m)
    (hl : l ≠ []) :
    m.OrderNum1 = orderNum1Spec l ∧
    (∀ i : Nat, i < 5 → orderNumGet m i = orderNumPairSpec l i) ∧
    prepare_data_map ctr current_date result sc cc bc cart l carrier_name
      quote_number quote_price tracking_number weight dims a7 a8 =
    prepare_data_map ctr current_date result sc cc bc cart (l.take 12) carrier_name
      quote_number quote_price tracking_number weight dims a7 a8 := by
  simp only [prepare_data_map] at hm
  cases hpop : populate_skid_dimensions
      (with_constants (with_carrier_fields carrier_name quote_number quote_price
        (with_order_numbers l (base_data_map ctr current_date result sc cc bc cart
          carrier_name tracking_number weight a7 a8)))) dims with
  | none => rw [hpop] at hm; cases hm
  | some m4 =>
    rw [hpop] at hm
    have hm4 : m = with_hu_types sc cc bc m4 := by
      cases hm
      rfl
    refine ⟨?_, ?_, ?_⟩
    · rw [hm4]
      rw [with_hu_types_OrderNum1]
      rw [popLoop_congr (fun x => x.OrderNum1) (fun _ _ => rfl) _ _ _ _ hpop]
      rw [show (with_constants (with_carrier_fields carrier_name quote_number quote_price
        (with_order_numbers l (base_data_map ctr current_date result sc cc bc cart
          carrier_name tracking_number weight a7 a8)))).OrderNum1
        = (with_carrier_fields carrier_name quote_number quote_price
            (with_order_numbers l (base_data_map ctr current_date result sc cc bc cart
              carrier_name tracking_number weight a7 a8))).OrderNum1 from rfl]
      rw [with_carrier_fields_OrderNum1]
      cases l with
      | nil => exact absurd rfl hl
      | cons n0 rest =>
        rw [with_order_numbers_OrderNum1]
        cases rest with
        | nil => rfl
        | cons n1 rest2 => rfl
    · intro i hi
      rw [hm4]
      rw [with_hu_types_orderNumGet]
      rw [popLoop_congr (fun x => orderNumGet x i)
        (fun x d => by rcases i with _ | _ | _ | _ | _ | i <;> rfl) _ _ _ _ hpop]
      rw [show orderNumGet (with_constants (with_carrier_fields carrier_name quote_number
          quote_price (with_order_numbers l (base_data_map ctr current_date result sc cc
            bc cart carrier_name tracking_number weight a7 a8)))) i
        = orderNumGet (with_carrier_fields carrier_name quote_number quote_price
            (with_order_numbers l (base_data_map ctr current_date result sc cc bc cart
              carrier_name tracking_number weight a7 a8))) i from by
          rcases i with _ | _ | _ | _ | _ | i <;> rfl]
      rw [with_carrier_fields_orderNumGet]
      rw [orderNumGet_with_order_numbers l _ i hi]
      have hbase : orderNumGet (base_data_map ctr current_date result sc cc bc cart
          carrier_name tracking_number weight a7 a8) i = none := by
        rcases i with _ | _ | _ | _ | _ | i <;> rfl
      simp only [orderNumPairSpec]
      cases l.get? (i * 2 + 2) with
      | none => exact hbase
      | some a => cases l.get? (i * 2 + 3) with
        | none => rfl
        | some b => rfl
    · simp only [prepare_data_map]
      rw [with_order_numbers_take12]

/-- C8 (witness): the packing at five concrete order numbers. -/
theorem C8_witness :
    (prepare_data_map (fun s => (s, true)) "2024-10-16" ⟨"SID1", "", "", "", "", ""⟩
      0 0 0 0 ["n1", "n2", "n3", "n4", "n5"] "FF" "" "" "" "" [] "" "").isSome = true ∧
    (∀ m, prepare_data_map (fun s => (s, true)) "2024-10-16" ⟨"SID1", "", "", "", "", ""⟩
        0 0 0 0 ["n1", "n2", "n3", "n4", "n5"] "FF" "" "" "" "" [] "" "" = some m →
      m.OrderNum1 = some "n1, n2" ∧ m.OrderNum2 = some "n3, n4" ∧
      m.OrderNum3 = some "n5" ∧ m.OrderNum4 = none ∧ m.OrderNum5 = none ∧
      m.OrderNum6 = none) := by
  constructor
  · rfl
  · intro m hm
    have h := C8_order_number_packing (fun s => (s, true)) "2024-10-16"
      ⟨"SID1", "", "", "", "", ""⟩ 0 0 0 0 ["n1", "n2", "n3", "n4", "n5"]
      "FF" "" "" "" "" [] "" "" m hm (by simp)
    refine ⟨h.1.trans rfl, ?_, ?_, ?_, ?_, ?_⟩
    · exact (h.2.1 0 (by omega)).trans rfl
    · exact (h.2.1 1 (by omega)).trans rfl
    · exact (h.2.1 2 (by omega)).trans rfl
    · exact (h.2.1 3 (by omega)).trans rfl
    · exact (h.2.1 4 (by omega)).trans rfl

theorem popGroupSpec_zero_cons (g : List String) (gs : List (List String))
    (dflt : Option String) :
    popGroupSpec (g :: gs) 0 dflt =
      if (g.filter fun dim => !pyStartsWith dim "N/A").isEmpty then dflt
      else some (joinComma (g.filter fun dim => !pyStartsWith dim "N/A")) := rfl

theorem popGroupSpec_succ_cons (g : List String) (gs : List (List String))
    (k : Nat) (dflt : Option String) :
    popGroupSpec (g :: gs) (k + 1) dflt = popGroupSpec gs k dflt := rfl

theorem popLoop_descs (gs : List (List String)) :
    ∀ (i0 : Nat) (m m' : FieldMap), popLoop i0 gs m = some m' → ∀ j : Nat,
      (j < i0 → m'.descs j = m.descs j) ∧
      (i0 ≤ j → m'.descs j = popGroupSpec gs (j - i0) (m.descs j)) := by
  induction gs with
  | nil =>
    intro i0 m m' h j
    simp only [popLoop] at h
    cases h
    exact ⟨fun _ => rfl, fun _ => rfl⟩
  | cons g gs ih =>
    intro i0 m m' h j
    simp only [popLoop] at h
    split at h
    · -- the group is fully filtered out: nothing written
      rename_i hfe
      have hih := ih (i0 + 1) m m' h j
      refine ⟨fun hj => hih.1 (by omega), fun hj => ?_⟩
      rcases eq_or_lt_of_le hj with hj' | hj'
      · subst hj'
        rw [hih.1 (by omega), Nat.sub_self, popGroupSpec_zero_cons, if_pos hfe]
      · rw [hih.2 (by omega), show j - i0 = (j - (i0 + 1)) + 1 by omega,
          popGroupSpec_succ_cons]
    · -- the group survives: slot i0 is written when it exists
      rename_i hfe
      split at h
      · cases h
      · rename_i fld heq
        have hih := ih (i0 + 1) _ m' h j
        refine ⟨fun hj => ?_, fun hj => ?_⟩
        · have hred : m'.descs j = Function.update m.descs i0
              (some (joinComma (g.filter fun dim => !pyStartsWith dim "N/A"))) j :=
            hih.1 (by omega)
          rw [hred, Function.update_noteq (by omega) _ _]
        · rcases eq_or_lt_of_le hj with hj' | hj'
          · subst hj'
            have hred : m'.descs i0 = Function.update m.descs i0
                (some (joinComma (g.filter fun dim => !pyStartsWith dim "N/A"))) i0 :=
              hih.1 (by omega)
            rw [hred, Function.update_same, Nat.sub_self, popGroupSpec_zero_cons,
              if_neg hfe]
          · have hred : m'.descs j = popGroupSpec gs (j - (i0 + 1))
                (Function.update m.descs i0
                  (some (joinComma (g.filter fun dim => !pyStartsWith dim "N/A"))) j) :=
              hih.2 (by omega)
            rw [hred, Function.update_noteq (by omega) _ _,
              show j - i0 = (j - (i0 + 1)) + 1 by omega, popGroupSpec_succ_cons]

theorem descSpec_eq_popGroupSpec (skid_dimensions : List String) (i : Nat) :
    descSpec skid_dimensions i = popGroupSpec (chunks3 skid_dimensions) i none := by
  unfold descSpec popGroupSpec
  cases (chunks3 skid_dimensions).get? i with
  | none => rfl
  | some g => rfl

/-- C9 (amended, proved): whenever the canonical builder returns a map,
description slot `i` (field `Desc_(i+2)`, previously absent) holds exactly
the comma-joined `i`-th group of 3 after dropping "N/A"-prefixed entries,
and stays absent when the group is missing or fully filtered out. -/
theorem C9_desc_fields (skid_dimensions : List String) (m m' : FieldMap)
    (hm : populate_skid_dimensions m skid_dimensions = some m')
    (i : Nat) (hi : i < 7) (hbase : m.descs i = none) :
    m'.descs i = descSpec skid_dimensions i := by
  have h := (popLoop_descs (chunks3 skid_dimensions) 0 m m' hm i).2 (Nat.zero_le i)
  rw [Nat.sub_zero, hbase] at h
  rw [descSpec_eq_popGroupSpec]
  exact h

/-- C9 (witness): the builder on six entries, among them plain and tagged
"N/A" sentinels, populates the first two description slots and leaves the
third absent. -/
theorem C9_witness :
    populate_skid_dimensions {} ["N/A", "1x1x1", "N/A (C)", "2x2x2", "3x3x3", "4x4x4"]
      = some ((populate_skid_dimensions {}
          ["N/A", "1x1x1", "N/A (C)", "2x2x2", "3x3x3", "4x4x4"]).get (by rfl)) ∧
    ((populate_skid_dimensions {}
        ["N/A", "1x1x1", "N/A (C)", "2x2x2", "3x3x3", "4x4x4"]).get (by rfl)).descs 0
      = some "1x1x1" ∧
    ((populate_skid_dimensions {}
        ["N/A", "1x1x1", "N/A (C)", "2x2x2", "3x3x3", "4x4x4"]).get (by rfl)).descs 1
      = some "2x2x2, 3x3x3, 4x4x4" ∧
    ((populate_skid_dimensions {}
        ["N/A", "1x1x1", "N/A (C)", "2x2x2", "3x3x3", "4x4x4"]).get (by rfl)).descs 2
      = none := by
  refine ⟨(Option.some_get _).symm, ?_, ?_, ?_⟩
  · exact (C9_desc_fields ["N/A", "1x1x1", "N/A (C)", "2x2x2", "3x3x3", "4x4x4"] {} _
      (Option.some_get _).symm 0 (by omega) rfl).trans (by rfl)
  · exact (C9_desc_fields ["N/A", "1x1x1", "N/A (C)", "2x2x2", "3x3x3", "4x4x4"] {} _
      (Option.some_get _).symm 1 (by omega) rfl).trans (by rfl)
  · exact (C9_desc_fields ["N/A", "1x1x1", "N/A (C)", "2x2x2", "3x3x3", "4x4x4"] {} _
      (Option.some_get _).symm 2 (by omega) rfl).trans (by rfl)

theorem order_num_pairs_loop_congr (f : FieldMap → Option String)
    (hf : ∀ (i : Nat) (v : String) (m : FieldMap), f (setOrderNumField i v m) = f m)
    (l : List String) : ∀ (n i0 : Nat) (m : FieldMap),
      f (order_num_pairs_loop l i0 n m) = f m := by
  intro n
  induction n with
  | zero => intro i0 m; rfl
  | succ n ih =>
    intro i0 m
    rw [show order_num_pairs_loop l i0 (n + 1) m
        = order_num_pairs_loop l (i0 + 1) n (orderNumStep l i0 m) from rfl]
    rw [ih (i0 + 1) (orderNumStep l i0 m)]
    unfold orderNumStep
    cases l.get? (i0 * 2 + 2) with
    | none => rfl
    | some a =>
      cases l.get? (i0 * 2 + 3) with
      | none => exact hf i0 a m
      | some b => exact hf i0 (a ++ ", " ++ b) m

theorem with_order_numbers_congr (f : FieldMap → Option String)
    (hf : ∀ (i : Nat) (v : String) (m : FieldMap), f (setOrderNumField i v m) = f m)
    (h1 : ∀ (m : FieldMap) (v : Option String), f { m with OrderNum1 := v } = f m)
    (l : List String) (m : FieldMap) : f (with_order_numbers l m) = f m := by
  cases l with
  | nil => rfl
  | cons n0 rest =>
    simp only [with_order_numbers]
    rw [order_num_pairs_loop_congr f hf]
    exact h1 m _

theorem popLoop_isSome (gs : List (List String)) :
    ∀ (i0 : Nat) (m : FieldMap), i0 + gs.length ≤ 7 → (popLoop i0 gs m).isSome = true := by
  induction gs with
  | nil => intro i0 m _; rfl
  | cons g gs ih =>
    intro i0 m hlen
    simp only [popLoop]
    split
    · exact ih (i0 + 1) m (by simp at hlen; omega)
    · cases hd : desc_fields.get? i0 with
      | none =>
        exfalso
        have h7 : desc_fields.length ≤ i0 := List.get?_eq_none.mp hd
        have : desc_fields.length = 7 := rfl
        simp at hlen
        omega
      | some fld => exact ih (i0 + 1) _ (by simp at hlen; omega)

theorem chunks3_le (n : Nat) : ∀ l : List String, l.length ≤ 3 * n → (chunks3 l).length ≤ n := by
  induction n with
  | zero =>
    intro l hl
    have : l = [] := List.eq_nil_of_length_eq_zero (by omega)
    subst this
    simp [chunks3]
  | succ n ih =>
    intro l hl
    rcases l with _ | ⟨a, _ | ⟨b, _ | ⟨c, t⟩⟩⟩
    · simp [chunks3]
    · simp [chunks3]
    · simp [chunks3]
    · have ht := ih t (by simp at hl; omega)
      simp [chunks3]
      omega

/-- C1 (amended, proved): for any order record (blank fields embedded as
empty strings), any argument values and any dimension list of at most 21
entries, the field-map builder returns a map, and the destination fields
degrade to their fallback text instead of erroring. -/
theorem C1_total_and_fallbacks (ctr : String → String × Bool) (current_date : String)
    (result : OrderRecord) (sc cc bc cart : Int) (l : List String)
    (carrier_name quote_number quote_price tracking_number weight : String)
    (dims : List String) (a7 a8 : String) (hdims : dims.length ≤ 21) :
    ∃ m, prepare_data_map ctr current_date result sc cc bc cart l carrier_name
        quote_number quote_price tracking_number weight dims a7 a8 = some m ∧
      m.ToName = some (pyOr result.SSD_SHIP_TO "Unknown") ∧
      m.ToAddress = some (pyOr result.SSD_SHIP_TO_2 "Unknown Address") ∧
      m.ToCityStateZip = some (pyStripS (pyOr result.SSD_SHIP_TO_4 "Unknown City") ++ ". "
        ++ pyStripS (pyOr result.SSD_SHIP_TO_POSTAL "Unknown Postal Code")) := by
  have hsome := popLoop_isSome (chunks3 dims) 0
    (with_constants (with_carrier_fields carrier_name quote_number quote_price
      (with_order_numbers l (base_data_map ctr current_date result sc cc bc cart
        carrier_name tracking_number weight a7 a8))))
    (by have := chunks3_le 7 dims (by omega); omega)
  obtain ⟨m4, hm4⟩ := Option.isSome_iff_exists.mp hsome
  have hm4' : populate_skid_dimensions
      (with_constants (with_carrier_fields carrier_name quote_number quote_price
        (with_order_numbers l (base_data_map ctr current_date result sc cc bc cart
          carrier_name tracking_number weight a7 a8)))) dims = some m4 := hm4
  refine ⟨with_hu_types sc cc bc m4, ?_, ?_, ?_, ?_⟩
  · simp only [prepare_data_map]
    rw [hm4']
  · rw [with_hu_types_ToName]
    rw [popLoop_congr (fun x => x.ToName) (fun _ _ => rfl) _ _ _ _ hm4']
    rw [show (with_constants (with_carrier_fields carrier_name quote_number quote_price
      (with_order_numbers l (base_data_map ctr current_date result sc cc bc cart
        carrier_name tracking_number weight a7 a8)))).ToName
      = (with_carrier_fields carrier_name quote_number quote_price
          (with_order_numbers l (base_data_map ctr current_date result sc cc bc cart
            carrier_name tracking_number weight a7 a8))).ToName from rfl]
    rw [with_carrier_fields_ToName]
    rw [with_order_numbers_congr (fun x => x.ToName)
      (fun i v m => by rcases i with _ | _ | _ | _ | _ | i <;> rfl) (fun _ _ => rfl)]
    rfl
  · rw [with_hu_types_ToAddress]
    rw [popLoop_congr (fun x => x.ToAddress) (fun _ _ => rfl) _ _ _ _ hm4']
    rw [show (with_constants (with_carrier_fields carrier_name quote_number quote_price
      (with_order_numbers l (base_data_map ctr current_date result sc cc bc cart
        carrier_name tracking_number weight a7 a8)))).ToAddress
      = (with_carrier_fields carrier_name quote_number quote_price
          (with_order_numbers l (base_data_map ctr current_date result sc cc bc cart
            carrier_name tracking_number weight a7 a8))).ToAddress from rfl]
    rw [with_carrier_fields_ToAddress]
    rw [with_order_numbers_congr (fun x => x.ToAddress)
      (fun i v m => by rcases i with _ | _ | _ | _ | _ | i <;> rfl) (fun _ _ => rfl)]
    rfl
  · rw [with_hu_types_ToCityStateZip]
    rw [popLoop_congr (fun x => x.ToCityStateZip) (fun _ _ => rfl) _ _ _ _ hm4']
    rw [show (with_constants (with_carrier_fields carrier_name quote_number quote_price
      (with_order_numbers l (base_data_map ctr current_date result sc cc bc cart
        carrier_name tracking_number weight a7 a8)))).ToCityStateZip
      = (with_carrier_fields carrier_name quote_number quote_price
          (with_order_numbers l (base_data_map ctr current_date result sc cc bc cart
            carrier_name tracking_number weight a7 a8))).ToCityStateZip from rfl]
    rw [with_carrier_fields_ToCityStateZip]
    rw [with_order_numbers_congr (fun x => x.ToCityStateZip)
      (fun i v m => by rcases i with _ | _ | _ | _ | _ | i <;> rfl) (fun _ _ => rfl)]
    rfl

/-- C1 (witness): the amended statement at a record with blank destination
fields and one dimension entry. -/
theorem C1_witness :
    ∃ m, prepare_data_map (fun s => (s, true)) "2024-10-16" ⟨"SID1", "", "", "", "", ""⟩
        1 0 0 2 [] "FF" "" "" "" "" ["1x1x1"] "" "" = some m ∧
      m.ToName = some (pyOr "" "Unknown") ∧
      m.ToAddress = some (pyOr "" "Unknown Address") ∧
      m.ToCityStateZip = some (pyStripS (pyOr "" "Unknown City") ++ ". "
        ++ pyStripS (pyOr "" "Unknown Postal Code")) :=
  C1_total_and_fallbacks (fun s => (s, true)) "2024-10-16" ⟨"SID1", "", "", "", "", ""⟩
    1 0 0 2 [] "FF" "" "" "" "" ["1x1x1"] "" "" (by decide)

theorem toList_append (a b : String) : (a ++ b).toList = a.toList ++ b.toList :=
  String.data_append a b

theorem listIsInfixOf_subset (pat : List Char) :
    ∀ l : List Char, listIsInfixOf pat l = true → ∀ a ∈ pat, a ∈ l := by
  intro l
  induction l with
  | nil =>
    intro h a ha
    rw [show listIsInfixOf pat [] = pat.isEmpty from rfl, List.isEmpty_iff] at h
    subst h
    cases ha
  | cons c cs ih =>
    intro h a ha
    rw [show listIsInfixOf pat (c :: cs)
        = (pat.isPrefixOf (c :: cs) || listIsInfixOf pat cs) from rfl] at h
    rcases (Bool.or_eq_true _ _).mp h with h | h
    · exact (List.isPrefixOf_iff_prefix.mp h).sublist.subset ha
    · exact List.mem_cons_of_mem c (ih h a ha)

theorem listIsInfixOf_append_left (pat l2 : List Char) (h : listIsInfixOf pat l2 = true) :
    ∀ l1 : List Char, listIsInfixOf pat (l1 ++ l2) = true := by
  intro l1
  induction l1 with
  | nil => simpa using h
  | cons c cs ih =>
    show (pat.isPrefixOf (c :: (cs ++ l2)) || listIsInfixOf pat (cs ++ l2)) = true
    rw [ih]
    simp

theorem pyIn_eq_false_of_not_mem (pat s : String) (a : Char)
    (hpat : a ∈ pat.toList) (hs : a ∉ s.toList) : pyIn pat s = false := by
  cases h : pyIn pat s
  · rfl
  · exact absurd (listIsInfixOf_subset _ _ h a hpat) hs

theorem pyIn_append_tag (pat p tag : String) (h : listIsInfixOf pat.toList tag.toList = true) :
    pyIn pat (p ++ tag) = true := by
  unfold pyIn
  rw [toList_append]
  exact listIsInfixOf_append_left _ _ h _

/-- A normalized (non-bypassed) dimension string consists of digits and the
letter x only. -/
theorem process_chars (carrier_name s p : String)
    (hc : carrier_name ≠ "PARCEL PRO")
    (hp : process_skid_dimensions carrier_name s = some p) :
    p.toList.all (fun ch => ch.isDigit || ch == 'x') = true := by
  simp only [process_skid_dimensions] at hp
  rw [if_neg hc] at hp
  split at hp
  · -- the 6-digit branch
    rename_i h6
    have hd : s.toList.all Char.isDigit = true := by
      simp only [Bool.and_eq_true] at h6
      exact h6.2
    injection hp with hp
    subst hp
    show ((((s.toList.take 2 ++ ['x']) ++ (s.toList.drop 2).take 2) ++ ['x'])
      ++ s.toList.drop 4).all (fun ch => ch.isDigit || ch == 'x') = true
    rw [List.all_eq_true]
    intro a ha
    simp only [List.mem_append, List.mem_singleton] at ha
    have hdig := List.all_eq_true.mp hd
    rcases ha with (((ha | ha) | ha) | ha) | ha
    · simp [hdig a (List.mem_of_mem_take ha)]
    · subst ha; decide
    · simp [hdig a (List.mem_of_mem_drop (List.mem_of_mem_take ha))]
    · subst ha; decide
    · simp [hdig a (List.mem_of_mem_drop ha)]
  · -- the split branch
    split at hp
    · rename_i a b c heq
      split at hp
      · rename_i hds
        simp only [isDigitStr, Bool.and_eq_true] at hds
        injection hp with hp
        subst hp
        show ((((a ++ ['x']) ++ b) ++ ['x']) ++ c).all
          (fun ch => ch.isDigit || ch == 'x') = true
        rw [List.all_eq_true]
        intro z hz
        simp only [List.mem_append, List.mem_singleton] at hz
        rcases hz with (((hz | hz) | hz) | hz) | hz
        · simp [List.all_eq_true.mp hds.1.1.2 z hz]
        · subst hz; decide
        · simp [List.all_eq_true.mp hds.1.2.2 z hz]
        · subst hz; decide
        · simp [List.all_eq_true.mp hds.2.2 z hz]
      · cases hp
    · cases hp

theorem countC_append_single (dims : List String) (d : String) :
    countC (dims ++ [d]) = countC dims + (if pyIn "(C)" d = true then 1 else 0) := by
  unfold countC
  rw [List.filter_append, List.length_append]
  push_cast
  congr 1
  rw [List.filter_cons]
  split <;> simp

theorem countB_append_single (dims : List String) (d : String) :
    countB (dims ++ [d]) = countB dims + (if pyIn "(B)" d = true then 1 else 0) := by
  unfold countB
  rw [List.filter_append, List.length_append]
  push_cast
  congr 1
  rw [List.filter_cons]
  split <;> simp

theorem add_preserves_consistent (carrier_name classification raw : String) (st : GuiState)
    (hc : carrier_name ≠ "PARCEL PRO") (hst : counters_consistent st) :
    counters_consistent (add_skid_dimension carrier_name classification raw st) := by
  cases hp : process_skid_dimensions carrier_name (pyStripS raw) with
  | none =>
    have key : add_skid_dimension carrier_name classification raw st = st := by
      unfold add_skid_dimension
      rw [if_neg (fun hand => hc hand.1), hp]
    rw [key]
    exact hst
  | some p =>
    have key : add_skid_dimension carrier_name classification raw st =
        (if p = "" then st
         else if classification = "Carpet" then
           { st with
             skid_dimensions := st.skid_dimensions ++ [p ++ " (C)"]
             carpet_count := st.carpet_count + 1 }
         else if classification = "Box" then
           { st with
             skid_dimensions := st.skid_dimensions ++ [p ++ " (B)"]
             box_count := st.box_count + 1 }
         else
           { st with
             skid_dimensions := st.skid_dimensions ++ [p]
             skid_count := st.skid_count + 1 }) := by
      unfold add_skid_dimension
      rw [if_neg (fun hand => hc hand.1), hp]
    rw [key]
    have hall := process_chars carrier_name (pyStripS raw) p hc hp
    have hnot : ∀ a : Char, (a.isDigit || a == 'x') = false → a ∉ p.toList := by
      intro a hfa hmem
      have := List.all_eq_true.mp hall a hmem
      rw [hfa] at this
      cases this
    have hCp : pyIn "(C)" p = false :=
      pyIn_eq_false_of_not_mem _ _ '(' (by decide) (hnot '(' (by decide))
    have hBp : pyIn "(B)" p = false :=
      pyIn_eq_false_of_not_mem _ _ '(' (by decide) (hnot '(' (by decide))
    have hCtagC : pyIn "(C)" (p ++ " (C)") = true := pyIn_append_tag _ p _ (by decide)
    have hBtagB : pyIn "(B)" (p ++ " (B)") = true := pyIn_append_tag _ p _ (by decide)
    have hBtagC : pyIn "(B)" (p ++ " (C)") = false := by
      refine pyIn_eq_false_of_not_mem _ _ 'B' (by decide) ?_
      rw [toList_append]
      simp only [List.mem_append]
      rintro (h | h)
      · exact hnot 'B' (by decide) h
      · revert h; decide
    have hCtagB : pyIn "(C)" (p ++ " (B)") = false := by
      refine pyIn_eq_false_of_not_mem _ _ 'C' (by decide) ?_
      rw [toList_append]
      simp only [List.mem_append]
      rintro (h | h)
      · exact hnot 'C' (by decide) h
      · revert h; decide
    split_ifs with hpe h1 h2
    · exact hst
    · refine ⟨?_, ?_⟩
      · show st.carpet_count + 1 = countC (st.skid_dimensions ++ [p ++ " (C)"])
        rw [countC_append_single, if_pos hCtagC, hst.1]
      · show st.box_count = countB (st.skid_dimensions ++ [p ++ " (C)"])
        rw [countB_append_single, if_neg (by rw [hBtagC]; exact Bool.false_ne_true), hst.2]
        ring
    · refine ⟨?_, ?_⟩
      · show st.carpet_count = countC (st.skid_dimensions ++ [p ++ " (B)"])
        rw [countC_append_single, if_neg (by rw [hCtagB]; exact Bool.false_ne_true), hst.1]
        ring
      · show st.box_count + 1 = countB (st.skid_dimensions ++ [p ++ " (B)"])
        rw [countB_append_single, if_pos hBtagB, hst.2]
    · refine ⟨?_, ?_⟩
      · show st.carpet_count = countC (st.skid_dimensions ++ [p])
        rw [countC_append_single, if_neg (by rw [hCp]; exact Bool.false_ne_true), hst.1]
        ring
      · show st.box_count = countB (st.skid_dimensions ++ [p])
        rw [countB_append_single, if_neg (by rw [hBp]; exact Bool.false_ne_true), hst.2]
        ring

theorem run_adds_consistent : ∀ (ops : List GuiOp) (st : GuiState),
    (∀ op ∈ ops, ∃ c cl r, op = GuiOp.add c cl r ∧ c ≠ "PARCEL PRO") →
    counters_consistent st → counters_consistent (ops.foldl applyGuiOp st) := by
  intro ops
  induction ops with
  | nil => intro st _ h; exact h
  | cons op ops ih =>
    intro st hops h
    obtain ⟨c, cl, r, hop, hc⟩ := hops op (List.mem_cons_self op ops)
    subst hop
    exact ih _ (fun o ho => hops o (List.mem_cons_of_mem _ ho))
      (add_preserves_consistent c cl r st hc h)

/-- C10 (amended, proved): after every sequence of add-dimension operations
with a non-PARCEL-PRO carrier, the module counters `carpet_count` and
`box_count` equal the number of "(C)" and "(B)" entries of the dimension
list; the counterexample shows a deletion breaks the equality, since
`delete_selected_item` never decrements the counters. -/
theorem C10_add_only_invariant (ops : List GuiOp)
    (hops : ∀ op ∈ ops, ∃ c cl r, op = GuiOp.add c cl r ∧ c ≠ "PARCEL PRO") :
    counters_consistent (runGuiOps ops) :=
  run_adds_consistent ops initialGuiState hops ⟨rfl, rfl⟩

/-- C10 (witness): the invariant after one add operation. -/
theorem C10_witness :
    counters_consistent (runGuiOps [GuiOp.add "FF" "Skid" "123456"]) :=
  C10_add_only_invariant [GuiOp.add "FF" "Skid" "123456"] (by
    intro op hop
    rw [List.mem_singleton] at hop
    exact ⟨"FF", "Skid", "123456", hop, by decide⟩)

theorem splitND_cons_digit (c : Char) (cs : List Char) (hc : c.isDigit = true)
    (g : List Char) (gs : List (List Char)) (hgs : splitND cs = g :: gs) :
    splitND (c :: cs) = (c :: g) :: gs := by
  simp only [splitND]
  rw [if_pos hc, hgs]

theorem splitND_cons_nondigit_nil (c : Char) (hc : c.isDigit = false) :
    splitND [c] = [[], []] := by
  simp only [splitND]
  rw [if_neg (by simp [hc])]

theorem splitND_cons_nondigit_digit (c d : Char) (cs : List Char)
    (hc : c.isDigit = false) (hd : d.isDigit = true) :
    splitND (c :: d :: cs) = [] :: splitND (d :: cs) := by
  simp only [splitND]
  rw [if_neg (by simp [hc]), if_pos hd]

theorem splitND_cons_nondigit_nondigit (c d : Char) (cs : List Char)
    (hc : c.isDigit = false) (hd : d.isDigit = false) :
    splitND (c :: d :: cs) = splitND (d :: cs) := by
  show (if c.isDigit = true then
      match splitND (d :: cs) with
      | [] => [[c]]
      | g :: gs => (c :: g) :: gs
    else if d.isDigit = true then [] :: splitND (d :: cs) else splitND (d :: cs))
    = splitND (d :: cs)
  rw [if_neg (by simp [hc]), if_neg (by simp [hd])]

theorem splitND_ne_nil : ∀ l : List Char, splitND l ≠ [] := by
  intro l
  induction l with
  | nil => simp [splitND]
  | cons c cs ih =>
    by_cases hc : c.isDigit
    · obtain ⟨g, gs, hgs⟩ := List.exists_cons_of_ne_nil ih
      rw [splitND_cons_digit c cs hc g gs hgs]
      simp
    · cases cs with
      | nil =>
        rw [splitND_cons_nondigit_nil c (by simpa using hc)]
        simp
      | cons d cs2 =>
        by_cases hd : d.isDigit
        · rw [splitND_cons_nondigit_digit c d cs2 (by simpa using hc) hd]
          simp
        · rw [splitND_cons_nondigit_nondigit c d cs2 (by simpa using hc) (by simpa using hd)]
          exact ih

theorem splitND_head_of_nondigit :
    ∀ (cs : List Char) (c : Char), c.isDigit = false →
      ∃ t, splitND (c :: cs) = [] :: t := by
  intro cs
  induction cs with
  | nil =>
    intro c hc
    exact ⟨[[]], splitND_cons_nondigit_nil c hc⟩
  | cons d cs2 ih =>
    intro c hc
    by_cases hd : d.isDigit
    · exact ⟨splitND (d :: cs2), splitND_cons_nondigit_digit c d cs2 hc hd⟩
    · obtain ⟨t, ht⟩ := ih d (by simpa using hd)
      exact ⟨t, (splitND_cons_nondigit_nondigit c d cs2 hc (by simpa using hd)).trans ht⟩

theorem splitND_digit_prefix :
    ∀ (g t : List Char), g.all Char.isDigit = true →
      ∀ (h : List Char) (hs : List (List Char)), splitND t = h :: hs →
        splitND (g ++ t) = (g ++ h) :: hs := by
  intro g
  induction g with
  | nil =>
    intro t _ h hs ht
    simpa using ht
  | cons c g2 ih =>
    intro t hall h hs ht
    have hc : c.isDigit = true := by
      simp only [List.all_cons, Bool.and_eq_true] at hall
      exact hall.1
    have hrec := ih t (by simp only [List.all_cons, Bool.and_eq_true] at hall; exact hall.2)
      h hs ht
    rw [List.cons_append, splitND_cons_digit c (g2 ++ t) hc (g2 ++ h) hs hrec,
      List.cons_append]

theorem splitND_nondigit_prefix :
    ∀ (m : List Char) (d : Char) (t2 : List Char), m ≠ [] →
      m.all (fun ch => !ch.isDigit) = true → d.isDigit = true →
      splitND (m ++ d :: t2) = [] :: splitND (d :: t2) := by
  intro m
  induction m with
  | nil => intro d t2 hne _ _; exact absurd rfl hne
  | cons x m2 ih =>
    intro d t2 _ hall hd
    have hx : x.isDigit = false := by
      simp only [List.all_cons, Bool.and_eq_true, Bool.not_eq_true'] at hall
      exact hall.1
    cases m2 with
    | nil => exact splitND_cons_nondigit_digit x d t2 hx hd
    | cons y m3 =>
      have hy : y.isDigit = false := by
        simp only [List.all_cons, Bool.and_eq_true, Bool.not_eq_true'] at hall
        exact hall.2.1
      rw [List.cons_append, show (y :: m3) ++ d :: t2 = y :: (m3 ++ d :: t2) from rfl]
      rw [splitND_cons_nondigit_nondigit x y (m3 ++ d :: t2) hx hy]
      exact ih d t2 (by simp) (by simp only [List.all_cons, Bool.and_eq_true,
        Bool.not_eq_true'] at hall ⊢; exact hall.2) hd

theorem splitND_of_decomp (g1 s1 g2 s2 g3 : List Char)
    (h : threeGroupShape g1 s1 g2 s2 g3) :
    splitND (g1 ++ s1 ++ g2 ++ s2 ++ g3) = [g1, g2, g3] := by
  obtain ⟨⟨h1ne, h1d⟩, ⟨hs1ne, hs1nd⟩, ⟨h2ne, h2d⟩, ⟨hs2ne, hs2nd⟩, ⟨h3ne, h3d⟩⟩ := h
  obtain ⟨d3, t3, hg3⟩ := List.exists_cons_of_ne_nil h3ne
  have hd3 : d3.isDigit = true := by
    rw [hg3] at h3d
    simp only [List.all_cons, Bool.and_eq_true] at h3d
    exact h3d.1
  have e3 : splitND g3 = [g3] := by
    have := splitND_digit_prefix g3 [] h3d [] [] rfl
    simpa using this
  have e2 : splitND (s2 ++ g3) = [[], g3] := by
    rw [hg3, splitND_nondigit_prefix s2 d3 t3 hs2ne hs2nd hd3, ← hg3, e3]
  have e2' : splitND (g2 ++ (s2 ++ g3)) = [g2, g3] := by
    have := splitND_digit_prefix g2 (s2 ++ g3) h2d [] [g3] e2
    simpa using this
  have e1 : splitND (s1 ++ (g2 ++ (s2 ++ g3))) = [[], g2, g3] := by
    obtain ⟨d2, t2, hg2⟩ := List.exists_cons_of_ne_nil h2ne
    have hd2 : d2.isDigit = true := by
      rw [hg2] at h2d
      simp only [List.all_cons, Bool.and_eq_true] at h2d
      exact h2d.1
    rw [hg2, List.cons_append, splitND_nondigit_prefix s1 d2 (t2 ++ (s2 ++ g3)) hs1ne hs1nd hd2,
      ← List.cons_append, ← hg2, e2']
  have e1' : splitND (g1 ++ (s1 ++ (g2 ++ (s2 ++ g3)))) = [g1, g2, g3] := by
    have := splitND_digit_prefix g1 (s1 ++ (g2 ++ (s2 ++ g3))) h1d [] [g2, g3] e1
    simpa using this
  calc splitND (g1 ++ s1 ++ g2 ++ s2 ++ g3)
      = splitND (g1 ++ (s1 ++ (g2 ++ (s2 ++ g3)))) := by simp [List.append_assoc]
    _ = [g1, g2, g3] := e1'

theorem splitND_cons_inversion :
    ∀ (l : List Char) (h : List Char) (t : List (List Char)), splitND l = h :: t →
      ∃ r, l = h ++ r ∧
        ((t = [] ∧ r = []) ∨ ∃ m r2, r = m ++ r2 ∧ m ≠ [] ∧
          m.all (fun ch => !ch.isDigit) = true ∧ splitND r2 = t) := by
  intro l
  induction l with
  | nil =>
    intro h t heq
    rw [show splitND [] = [[]] from rfl] at heq
    injection heq with h1 h2
    exact ⟨[], by simp [← h1], Or.inl ⟨h2.symm, rfl⟩⟩
  | cons c cs ih =>
    intro h t heq
    by_cases hc : c.isDigit
    · obtain ⟨g, gs, hgs⟩ := List.exists_cons_of_ne_nil (splitND_ne_nil cs)
      rw [splitND_cons_digit c cs hc g gs hgs] at heq
      injection heq with h1 h2
      obtain ⟨r, hr, hD⟩ := ih g gs hgs
      refine ⟨r, ?_, ?_⟩
      · rw [← h1, List.cons_append, ← hr]
      · rw [← h2]; exact hD
    · cases cs with
      | nil =>
        rw [splitND_cons_nondigit_nil c (by simpa using hc)] at heq
        injection heq with h1 h2
        refine ⟨[c], by simp [← h1], Or.inr ⟨[c], [], by simp, by simp, ?_, ?_⟩⟩
        · simp [Bool.not_eq_true']
          simpa using hc
        · rw [← h2]; rfl
      | cons d cs2 =>
        by_cases hd : d.isDigit
        · rw [splitND_cons_nondigit_digit c d cs2 (by simpa using hc) hd] at heq
          injection heq with h1 h2
          refine ⟨c :: d :: cs2, by simp [← h1], Or.inr ⟨[c], d :: cs2, by simp, by simp,
            ?_, h2⟩⟩
          simp [Bool.not_eq_true']
          simpa using hc
        · rw [splitND_cons_nondigit_nondigit c d cs2 (by simpa using hc)
            (by simpa using hd)] at heq
          obtain ⟨t0, ht0⟩ := splitND_head_of_nondigit cs2 d (by simpa using hd)
          have hhead : h = [] := by
            rw [ht0] at heq
            injection heq with h1 _
            exact h1.symm
          subst hhead
          obtain ⟨r, hr, hD⟩ := ih [] t heq
          simp only [List.nil_append] at hr
          rcases hD with ⟨ht, hrnil⟩ | ⟨m, r2, hm, hmne, hmall, hsp⟩
          · rw [hrnil] at hr
            cases hr
          · refine ⟨c :: d :: cs2, by simp, Or.inr ⟨c :: m, r2, ?_, by simp, ?_, hsp⟩⟩
            · rw [List.cons_append, ← hm, ← hr]
            · simp only [List.all_cons, Bool.and_eq_true, Bool.not_eq_true']
              exact ⟨by simpa using hc, hmall⟩

theorem isDigitStr_of (l : List Char) (hne : l ≠ []) (hd : l.all Char.isDigit = true) :
    isDigitStr l = true := by
  unfold isDigitStr
  rw [hd]
  cases l with
  | nil => exact absurd rfl hne
  | cons x xs => rfl

theorem splitND_three_decomp (l a b c : List Char) (h : splitND l = [a, b, c]) :
    ∃ s1 s2, s1 ≠ [] ∧ s1.all (fun ch => !ch.isDigit) = true ∧
      s2 ≠ [] ∧ s2.all (fun ch => !ch.isDigit) = true ∧
      l = a ++ s1 ++ b ++ s2 ++ c := by
  obtain ⟨r1, hr1, hD1⟩ := splitND_cons_inversion l a [b, c] h
  rcases hD1 with ⟨ht, _⟩ | ⟨m1, r2, hm1, hm1ne, hm1all, hsp1⟩
  · cases ht
  · obtain ⟨r3, hr3, hD2⟩ := splitND_cons_inversion r2 b [c] hsp1
    rcases hD2 with ⟨ht, _⟩ | ⟨m2, r4, hm2, hm2ne, hm2all, hsp2⟩
    · cases ht
    · obtain ⟨r5, hr5, hD3⟩ := splitND_cons_inversion r4 c [] hsp2
      rcases hD3 with ⟨_, hrnil⟩ | ⟨m3, r6, hm3, hm3ne, _, hsp3⟩
      · refine ⟨m1, m2, hm1ne, hm1all, hm2ne, hm2all, ?_⟩
        rw [hr1, hm1, hr3, hm2, hr5, hrnil]
        simp [List.append_assoc]
      · exact absurd hsp3 (splitND_ne_nil r6)

/-- C6 (confirmed): for a non-bypassing carrier and an input with no
boundary whitespace (both call sites strip the entry first), dimension
normalization maps a 6-digit string to its 2-2-2 split joined with x,
maps a string of exactly three digit groups separated by non-digit runs to
the groups joined with x, and fails on every other shape. -/
theorem C6_dimension_normalization (carrier_name s : String)
    (hc : carrier_name ≠ "PARCEL PRO") (hstrip : pyStrip s.toList = s.toList) :
    (s.toList.length = 6 → s.toList.all Char.isDigit = true →
      process_skid_dimensions carrier_name s = some (String.mk (s.toList.take 2) ++ "x"
        ++ String.mk ((s.toList.drop 2).take 2) ++ "x" ++ String.mk (s.toList.drop 4))) ∧
    (∀ g1 s1 g2 s2 g3 : List Char, threeGroupShape g1 s1 g2 s2 g3 →
      s.toList = g1 ++ s1 ++ g2 ++ s2 ++ g3 →
      process_skid_dimensions carrier_name s
        = some (String.mk g1 ++ "x" ++ String.mk g2 ++ "x" ++ String.mk g3)) ∧
    (¬(s.toList.length = 6 ∧ s.toList.all Char.isDigit = true) →
      (¬∃ g1 s1 g2 s2 g3, threeGroupShape g1 s1 g2 s2 g3 ∧
        s.toList = g1 ++ s1 ++ g2 ++ s2 ++ g3) →
      process_skid_dimensions carrier_name s = none) := by
  refine ⟨?_, ?_, ?_⟩
  · intro h1 h2
    simp only [process_skid_dimensions]
    rw [if_neg hc, if_pos (by
      simp only [Bool.and_eq_true, decide_eq_true_eq]
      exact ⟨h1, h2⟩)]
  · intro g1 s1 g2 s2 g3 hshape hdecomp
    obtain ⟨⟨h1ne, h1d⟩, ⟨hs1ne, hs1nd⟩, ⟨h2ne, h2d⟩, ⟨hs2ne, hs2nd⟩, ⟨h3ne, h3d⟩⟩ := hshape
    obtain ⟨x, s1t, hx⟩ := List.exists_cons_of_ne_nil hs1ne
    have hxnd : x.isDigit = false := by
      rw [hx] at hs1nd
      simp only [List.all_cons, Bool.and_eq_true, Bool.not_eq_true'] at hs1nd
      exact hs1nd.1
    have hxmem : x ∈ s.toList := by
      rw [hdecomp, hx]
      simp
    have hallfalse : s.toList.all Char.isDigit = false := by
      cases hall : s.toList.all Char.isDigit
      · rfl
      · exact absurd (List.all_eq_true.mp hall x hxmem) (by simp [hxnd])
    simp only [process_skid_dimensions]
    rw [if_neg hc, if_neg (by
      intro hcond
      simp only [Bool.and_eq_true] at hcond
      rw [hallfalse] at hcond
      exact absurd hcond.2 (by simp))]
    rw [hstrip, hdecomp,
      splitND_of_decomp g1 s1 g2 s2 g3
        ⟨⟨h1ne, h1d⟩, ⟨hs1ne, hs1nd⟩, ⟨h2ne, h2d⟩, ⟨hs2ne, hs2nd⟩, ⟨h3ne, h3d⟩⟩]
    show (if (isDigitStr g1 && isDigitStr g2 && isDigitStr g3) = true then
        some (String.mk g1 ++ "x" ++ String.mk g2 ++ "x" ++ String.mk g3)
      else none) = some (String.mk g1 ++ "x" ++ String.mk g2 ++ "x" ++ String.mk g3)
    rw [if_pos (by
      rw [isDigitStr_of g1 h1ne h1d, isDigitStr_of g2 h2ne h2d, isDigitStr_of g3 h3ne h3d]
      rfl)]
  · intro h6 hno
    simp only [process_skid_dimensions]
    rw [if_neg hc, if_neg (by
      simp only [Bool.and_eq_true, decide_eq_true_eq, ne_eq]
      intro hcond
      exact h6 ⟨hcond.1, hcond.2⟩)]
    rw [hstrip]
    rcases hsp : splitND s.toList with _ | ⟨a, _ | ⟨b, _ | ⟨c, _ | ⟨d, t⟩⟩⟩⟩
    · rfl
    · rfl
    · rfl
    · by_cases hdig : (isDigitStr a && isDigitStr b && isDigitStr c) = true
      · exfalso
        obtain ⟨s1, s2, hs1ne, hs1nd, hs2ne, hs2nd, hdec⟩ :=
          splitND_three_decomp s.toList a b c hsp
        simp only [isDigitStr, Bool.and_eq_true, Bool.not_eq_true'] at hdig
        refine hno ⟨a, s1, b, s2, c, ⟨⟨?_, hdig.1.1.2⟩, ⟨hs1ne, hs1nd⟩,
          ⟨?_, hdig.1.2.2⟩, ⟨hs2ne, hs2nd⟩, ⟨?_, hdig.2.2⟩⟩, hdec⟩
        · intro hnil; rw [hnil] at hdig; simp at hdig
        · intro hnil; rw [hnil] at hdig; simp at hdig
        · intro hnil; rw [hnil] at hdig; simp at hdig
      · exact if_neg hdig
    · rfl

/-- C6 (witness): the split branch at the stripped input 62x45x33. -/
theorem C6_witness :
    process_skid_dimensions "KPS" "62x45x33"
      = some (String.mk ['6', '2'] ++ "x" ++ String.mk ['4', '5'] ++ "x"
        ++ String.mk ['3', '3']) :=
  (C6_dimension_normalization "KPS" "62x45x33" (by decide) (by decide)).2.1
    ['6', '2'] ['x'] ['4', '5'] ['x'] ['3', '3'] (by decide) (by decide)

end Shipping
